import Mathlib

/-!
Verification development for the `pycubing` Rubik's-cube engine.

The Python source stores a cube as six N x N numpy grids (`Cube._cube`,
one per `Face`), mutated by the six private turn methods.  Here a cube is
a structure holding the same data as a function `Face → Fin N → Fin N → Color`.
Each quarter turn of the source is embedded as a *source-position map*
on facelet positions: the new cube reads facelet `p` from position `σ p`
of the old cube.  Every `σ` below is derived line-by-line from the numpy
slice assignments of `cube.py`; the derivations are recorded in comments.

Python `str` values (move tokens, serialized cubes) are Lean `String`s.
Python exceptions are the `PyErr` type; functions that can raise return
`Except PyErr _` (or `Option _` where only the turn assertions can fail).
-/

namespace PyCubing

/-- The `Face` enum of `enums.py` (FRONT=0, LEFT=1, BACK=2, RIGHT=3, TOP=4, BOTTOM=5). -/
inductive Face where
  | FRONT | LEFT | BACK | RIGHT | TOP | BOTTOM
deriving DecidableEq, Repr, Fintype

/-- The `Face.value` of the Python enum. -/
def Face.val : Face → Nat
  | .FRONT => 0 | .LEFT => 1 | .BACK => 2 | .RIGHT => 3 | .TOP => 4 | .BOTTOM => 5

/-- The `Color` enum of `enums.py` (GREEN=0, ORANGE=1, BLUE=2, RED=3, WHITE=4, YELLOW=5). -/
inductive Color where
  | GREEN | ORANGE | BLUE | RED | WHITE | YELLOW
deriving DecidableEq, Repr, Fintype

/-- The `Color.value` of the Python enum. -/
def Color.val : Color → Nat
  | .GREEN => 0 | .ORANGE => 1 | .BLUE => 2 | .RED => 3 | .WHITE => 4 | .YELLOW => 5

/-- The color placed on each face by `Cube.__init__` when `scramble is None`:
face number `k` is filled with `list(Color)[k]`. -/
def solvedColor : Face → Color
  | .FRONT => .GREEN | .LEFT => .ORANGE | .BACK => .BLUE
  | .RIGHT => .RED | .TOP => .WHITE | .BOTTOM => .YELLOW

/-- A cube state: the contents of the six `N x N` facelet grids of `Cube._cube`. -/
structure Cube (N : Nat) where
  faces : Face → Fin N → Fin N → Color

/-- A `Cube(side_length=N)` with the default (solved) scramble. -/
def initialCube (N : Nat) : Cube N := ⟨fun f _ _ => solvedColor f⟩

/-- A facelet position: a face together with row and column indices. -/
abbrev Pos (N : Nat) := Face × Fin N × Fin N

/-- Computes `N - 1 - i`: the row/column index mirrored by `np.flip`. -/
def fopp {N : Nat} (i : Fin N) : Fin N :=
  ⟨N - 1 - i.val, by have h := i.isLt; omega⟩

@[simp] theorem fopp_fopp {N : Nat} (i : Fin N) : fopp (fopp i) = i := by
  have h := i.isLt
  simp only [fopp]
  exact Fin.ext (by simp; omega)

@[simp] theorem fopp_val {N : Nat} (i : Fin N) : (fopp i).val = N - 1 - i.val := rfl

/-- Reads every facelet of `c` through the source-position map `σ`:
facelet `p` of the result is facelet `σ p` of `c`.  This is the functional
form of the simultaneous numpy band assignments (the source `.copy()`s all
bands before writing any of them, so the update is simultaneous). -/
def applyPerm {N : Nat} (σ : Pos N → Pos N) (c : Cube N) : Cube N :=
  ⟨fun f i j => c.faces (σ (f, i, j)).1 (σ (f, i, j)).2.1 (σ (f, i, j)).2.2⟩

/-- The letters accepted by `Cube.turn`'s `move_map` dictionary. -/
inductive MoveLetter where
  | R | L | U | D | F | B
deriving DecidableEq, Repr

/-- Source-position map of one quarter step of `Cube.__turn_right` with the
given `layer` `l` and `width` `w` (plus the capping-face rotations of that
method, folded in per quarter step).  Derived from `cube.py` lines 236-269:

* the affected bands are columns `[N-l, N-l+w)` of FRONT, TOP, BOTTOM and
  columns `[l-w, l)` of BACK (read flipped along axis 1);
* dest TOP gets the FRONT band unchanged, so `TOP[i][j] ← FRONT[i][j]`;
* dest BACK gets the TOP band flipped on axis 0, written flipped on axis 1,
  so `BACK[i][j] ← TOP[N-1-i][N-1-j]`;
* dest BOTTOM gets the (already axis-1-flipped) BACK band,
  so `BOTTOM[i][j] ← BACK[i][N-1-j]`;
* dest FRONT gets the BOTTOM band flipped on axis 0, so `FRONT[i][j] ← BOTTOM[N-1-i][j]`;
* if `layer - width == 0` the RIGHT face is rotated clockwise
  (`np.rot90(_, -1)`: `m[i][j] ← m[N-1-j][i]`);
* if `layer == N` the LEFT face is rotated counterclockwise
  (`rotate(LEFT, -dist)`: `m[i][j] ← m[j][N-1-i]`). -/
def turnRightSrc (N l w : Nat) : Pos N → Pos N
  | (.FRONT, i, j) =>
      if N - l ≤ j.val ∧ j.val < N - l + w then (.BOTTOM, fopp i, j) else (.FRONT, i, j)
  | (.TOP, i, j) =>
      if N - l ≤ j.val ∧ j.val < N - l + w then (.FRONT, i, j) else (.TOP, i, j)
  | (.BACK, i, j) =>
      if l - w ≤ j.val ∧ j.val < l then (.TOP, fopp i, fopp j) else (.BACK, i, j)
  | (.BOTTOM, i, j) =>
      if N - l ≤ j.val ∧ j.val < N - l + w then (.BACK, i, fopp j) else (.BOTTOM, i, j)
  | (.RIGHT, i, j) => if l - w = 0 then (.RIGHT, fopp j, i) else (.RIGHT, i, j)
  | (.LEFT, i, j) => if l = N then (.LEFT, j, fopp i) else (.LEFT, i, j)

/-- Source-position map of one quarter step of `Cube.__turn_left`
(`cube.py` lines 271-304):

* bands are columns `[l-w, l)` of FRONT, TOP, BOTTOM and columns
  `[N-l, N-l+w)` of BACK (read flipped along axis 1);
* dest BOTTOM gets FRONT flipped on axis 0: `BOTTOM[i][j] ← FRONT[N-1-i][j]`;
* dest FRONT gets TOP unchanged: `FRONT[i][j] ← TOP[i][j]`;
* dest TOP gets BACK (axis-1-flipped read) flipped on axis 0:
  `TOP[i][j] ← BACK[N-1-i][N-1-j]`;
* dest BACK gets BOTTOM written flipped on axis 1: `BACK[i][j] ← BOTTOM[i][N-1-j]`;
* if `layer - width == 0` the LEFT face rotates clockwise;
* if `layer == N` the RIGHT face rotates counterclockwise. -/
def turnLeftSrc (N l w : Nat) : Pos N → Pos N
  | (.FRONT, i, j) =>
      if l - w ≤ j.val ∧ j.val < l then (.TOP, i, j) else (.FRONT, i, j)
  | (.TOP, i, j) =>
      if l - w ≤ j.val ∧ j.val < l then (.BACK, fopp i, fopp j) else (.TOP, i, j)
  | (.BACK, i, j) =>
      if N - l ≤ j.val ∧ j.val < N - l + w then (.BOTTOM, i, fopp j) else (.BACK, i, j)
  | (.BOTTOM, i, j) =>
      if l - w ≤ j.val ∧ j.val < l then (.FRONT, fopp i, j) else (.BOTTOM, i, j)
  | (.LEFT, i, j) => if l - w = 0 then (.LEFT, fopp j, i) else (.LEFT, i, j)
  | (.RIGHT, i, j) => if l = N then (.RIGHT, j, fopp i) else (.RIGHT, i, j)

/-- Source-position map of one quarter step of `Cube.__turn_up`
(`cube.py` lines 306-331): rows `[l-w, l)` of the four side faces cycle
`FRONT → LEFT → BACK → RIGHT → FRONT` with no flips, so each dest face reads
the band of its clockwise neighbour; `layer - width == 0` rotates TOP
clockwise and `layer == N` rotates BOTTOM clockwise (`rotate(BOTTOM, dist)`). -/
def turnUpSrc (N l w : Nat) : Pos N → Pos N
  | (.LEFT, i, j) =>
      if l - w ≤ i.val ∧ i.val < l then (.FRONT, i, j) else (.LEFT, i, j)
  | (.BACK, i, j) =>
      if l - w ≤ i.val ∧ i.val < l then (.LEFT, i, j) else (.BACK, i, j)
  | (.RIGHT, i, j) =>
      if l - w ≤ i.val ∧ i.val < l then (.BACK, i, j) else (.RIGHT, i, j)
  | (.FRONT, i, j) =>
      if l - w ≤ i.val ∧ i.val < l then (.RIGHT, i, j) else (.FRONT, i, j)
  | (.TOP, i, j) => if l - w = 0 then (.TOP, fopp j, i) else (.TOP, i, j)
  | (.BOTTOM, i, j) => if l = N then (.BOTTOM, fopp j, i) else (.BOTTOM, i, j)

/-- Source-position map of one quarter step of `Cube.__turn_down`
(`cube.py` lines 333-358): rows `[N-l, N-l+w)` cycle
`FRONT → RIGHT → BACK → LEFT → FRONT` with no flips;
`layer - width == 0` rotates BOTTOM counterclockwise (`rotate(BOTTOM, -dist)`)
and `layer == N` rotates TOP counterclockwise. -/
def turnDownSrc (N l w : Nat) : Pos N → Pos N
  | (.RIGHT, i, j) =>
      if N - l ≤ i.val ∧ i.val < N - l + w then (.FRONT, i, j) else (.RIGHT, i, j)
  | (.FRONT, i, j) =>
      if N - l ≤ i.val ∧ i.val < N - l + w then (.LEFT, i, j) else (.FRONT, i, j)
  | (.LEFT, i, j) =>
      if N - l ≤ i.val ∧ i.val < N - l + w then (.BACK, i, j) else (.LEFT, i, j)
  | (.BACK, i, j) =>
      if N - l ≤ i.val ∧ i.val < N - l + w then (.RIGHT, i, j) else (.BACK, i, j)
  | (.BOTTOM, i, j) => if l - w = 0 then (.BOTTOM, j, fopp i) else (.BOTTOM, i, j)
  | (.TOP, i, j) => if l = N then (.TOP, j, fopp i) else (.TOP, i, j)

/-- Source-position map of one quarter step of `Cube.__turn_front`
(`cube.py` lines 360-398).  The bands are rows `[N-l, N-l+w)` of TOP and
BOTTOM, columns `[l-w, l)` of RIGHT (read flipped on axis 1) and columns
`[N-l, N-l+w)` of LEFT; each band is transposed before writing:

* dest RIGHT gets transposed TOP written flipped on axis 1:
  `RIGHT[i][j] ← TOP[N-1-j][i]`;
* dest BOTTOM gets (axis-1-flipped, transposed) RIGHT written flipped on
  axis 1: `BOTTOM[i][j] ← RIGHT[N-1-j][N-1-i]`;
* dest LEFT gets transposed BOTTOM unchanged: `LEFT[i][j] ← BOTTOM[j][i]`;
* dest TOP gets transposed LEFT written flipped on axis 1:
  `TOP[i][j] ← LEFT[N-1-j][i]`;
* `layer - width == 0` rotates FRONT clockwise, `layer == N` rotates
  BACK counterclockwise. -/
def turnFrontSrc (N l w : Nat) : Pos N → Pos N
  | (.RIGHT, i, j) =>
      if l - w ≤ j.val ∧ j.val < l then (.TOP, fopp j, i) else (.RIGHT, i, j)
  | (.BOTTOM, i, j) =>
      if N - l ≤ i.val ∧ i.val < N - l + w then (.RIGHT, fopp j, fopp i) else (.BOTTOM, i, j)
  | (.LEFT, i, j) =>
      if N - l ≤ j.val ∧ j.val < N - l + w then (.BOTTOM, j, i) else (.LEFT, i, j)
  | (.TOP, i, j) =>
      if N - l ≤ i.val ∧ i.val < N - l + w then (.LEFT, fopp j, i) else (.TOP, i, j)
  | (.FRONT, i, j) => if l - w = 0 then (.FRONT, fopp j, i) else (.FRONT, i, j)
  | (.BACK, i, j) => if l = N then (.BACK, j, fopp i) else (.BACK, i, j)

/-- Source-position map of one quarter step of `Cube.__turn_back`
(`cube.py` lines 400-438).  Bands: rows `[l-w, l)` of TOP and BOTTOM (read
flipped on axis 1), columns `[l-w, l)` of LEFT, columns `[N-l, N-l+w)` of
RIGHT (read flipped on axis 1); each transposed before writing:

* dest LEFT gets (flipped, transposed) TOP: `LEFT[i][j] ← TOP[j][N-1-i]`;
* dest TOP gets (flipped, transposed) RIGHT: `TOP[i][j] ← RIGHT[j][N-1-i]`;
* dest RIGHT gets (flipped, transposed) BOTTOM written flipped on axis 1:
  `RIGHT[i][j] ← BOTTOM[N-1-j][N-1-i]`;
* dest BOTTOM gets transposed LEFT: `BOTTOM[i][j] ← LEFT[j][i]`;
* `layer - width == 0` rotates BACK clockwise, `layer == N` rotates
  FRONT counterclockwise. -/
def turnBackSrc (N l w : Nat) : Pos N → Pos N
  | (.LEFT, i, j) =>
      if l - w ≤ j.val ∧ j.val < l then (.TOP, j, fopp i) else (.LEFT, i, j)
  | (.TOP, i, j) =>
      if l - w ≤ i.val ∧ i.val < l then (.RIGHT, j, fopp i) else (.TOP, i, j)
  | (.RIGHT, i, j) =>
      if N - l ≤ j.val ∧ j.val < N - l + w then (.BOTTOM, fopp j, fopp i) else (.RIGHT, i, j)
  | (.BOTTOM, i, j) =>
      if l - w ≤ i.val ∧ i.val < l then (.LEFT, j, i) else (.BOTTOM, i, j)
  | (.BACK, i, j) => if l - w = 0 then (.BACK, fopp j, i) else (.BACK, i, j)
  | (.FRONT, i, j) => if l = N then (.FRONT, j, fopp i) else (.FRONT, i, j)

/-- Dispatch of `Cube.turn`'s `move_map`. -/
def turnSrc (m : MoveLetter) (N l w : Nat) : Pos N → Pos N :=
  match m with
  | .R => turnRightSrc N l w
  | .L => turnLeftSrc N l w
  | .U => turnUpSrc N l w
  | .D => turnDownSrc N l w
  | .F => turnFrontSrc N l w
  | .B => turnBackSrc N l w

/-- Embeds `Cube.turn(move, dist, layer, width)`.  Each `__turn_*` method asserts
`layer - width >= 0` and `layer <= self.N` (modelled as `none`), reduces
`dist %= 4` (Python `%` is nonnegative, i.e. `Int.emod`), rotates the
capping faces by `dist` quarter turns and runs `dist` band quarter steps;
both together are `dist` applications of the per-step source map. -/
def Cube.turn {N : Nat} (c : Cube N) (move : MoveLetter) (dist : Int)
    (layer width : Nat) : Option (Cube N) :=
  if width ≤ layer ∧ layer ≤ N then
    some (applyPerm ((turnSrc move N layer width)^[(dist % 4).toNat]) c)
  else
    none

/-- The multiset of colors of all facelets of the cube (all six faces). -/
def facelets {N : Nat} (c : Cube N) : Multiset Color :=
  (Finset.univ : Finset (Pos N)).val.map fun p => c.faces p.1 p.2.1 p.2.2

/-- The `Cube.COLOR_TO_STRING` mapping. -/
def colorToChar : Color → Char
  | .YELLOW => 'y' | .GREEN => 'g' | .RED => 'r'
  | .BLUE => 'b' | .WHITE => 'w' | .ORANGE => 'o'

/-- The `Cube.STRING_TO_COLOR` mapping, as a partial lookup (a missing key is `none`). -/
def charToColorOpt (ch : Char) : Option Color :=
  if ch = 'y' then some .YELLOW else if ch = 'g' then some .GREEN
  else if ch = 'r' then some .RED else if ch = 'b' then some .BLUE
  else if ch = 'w' then some .WHITE else if ch = 'o' then some .ORANGE else none

/-- The `list(Face)` order: the six faces in declaration order. -/
def faceOrder : List Face := [.FRONT, .LEFT, .BACK, .RIGHT, .TOP, .BOTTOM]

/-- The characters contributed to `to_simple_string` by one face
(rows in order, columns in order within a row). -/
def faceChars {N : Nat} (c : Cube N) (f : Face) : List Char :=
  (List.finRange N).flatMap fun i =>
    (List.finRange N).map fun j => colorToChar (c.faces f i j)

/-- Embeds `Cube.to_simple_string`: for each face of `list(Face)` in order, for each
row and column in order, one color character. -/
def toSimpleString {N : Nat} (c : Cube N) : String :=
  String.mk (faceOrder.flatMap (faceChars c))

/-- Embeds `Cube.from_simple_string`.  The source asserts that all characters are
color keys, computes `N = sqrt(len(s)/6)` with float arithmetic and asserts
`N == int(N)`; that integrality test is modelled exactly by
`6 * Nat.sqrt (len / 6) * Nat.sqrt (len / 6) = len` (both hold precisely
when `len = 6*k*k` for some natural `k`).  The grids start as
`np.full((N, N), Color.WHITE)` (float rounding at astronomically large
sizes is not modelled; for strings produced by `to_simple_string` the
arithmetic is exact) and cell `(face, i, j)` is overwritten with
the color of character number `face*N*N + i*N + j` (the running counter `c`);
the `getD`/`WHITE` defaults are the `np.full` filler, never reached in range. -/
def fromSimpleString (s : String) : Option ((n : Nat) × Cube n) :=
  if s.toList.all (fun ch => (charToColorOpt ch).isSome) then
    if 6 * Nat.sqrt (s.length / 6) * Nat.sqrt (s.length / 6) = s.length then
      some ⟨Nat.sqrt (s.length / 6),
        ⟨fun f i j =>
          (charToColorOpt (s.toList.getD
            (f.val * (Nat.sqrt (s.length / 6) * Nat.sqrt (s.length / 6))
              + i.val * Nat.sqrt (s.length / 6) + j.val) 'w')).getD .WHITE⟩⟩
    else none
  else none

/-- The Python exceptions that the embedded code can raise:
`AttributeError` (a failed regex `.group()`), `KeyError` (missing dict key),
`StopIteration` (an exhausted `filter(...).__next__()`), `IndexError`,
`AssertionError` with its message, and the two exception classes of
`error.py` with their messages. -/
inductive PyErr where
  | attributeError
  | keyError
  | stopIteration
  | indexError
  | assertError (msg : String)
  | invalidTurn (msg : String)
  | impossibleScramble (msg : String)
deriving DecidableEq, Repr

/-- The apostrophe character (written by code point to keep sources plain). -/
def aposChar : Char := Char.ofNat 39

/-- Characters of the class `[rubfldRUBFLDxyz]` in `get_root_move`. -/
def isMoveChar (ch : Char) : Bool :=
  "rubfldRUBFLDxyz".toList.contains ch

/-- Embeds `get_root_move`: `re.match(r"([1-9][0-9]*)?[rubfldRUBFLDxyz]w?", move).group()`.
`re.match` anchors at the start; `none` models the `AttributeError` raised by
`.group()` on a failed match.  Since no digit is a move letter, backtracking
inside the optional digit group can never succeed at a shorter digit prefix,
so the match is: a maximal digit run starting with `1-9` (if any) followed by
one class letter and an optional `w`. -/
def getRootMove (s : String) : Option String :=
  match s.toList with
  | [] => none
  | c1 :: rest =>
    if c1.isDigit ∧ c1 ≠ '0' then
      let digits := (c1 :: rest).takeWhile (fun ch => ch.isDigit)
      match (c1 :: rest).drop digits.length with
      | c2 :: rest2 =>
        if isMoveChar c2 then
          some (String.mk (digits ++ [c2] ++ (if rest2.headD ' ' = 'w' then ['w'] else [])))
        else none
      | [] => none
    else if isMoveChar c1 then
      some (String.mk ([c1] ++ (if rest.headD ' ' = 'w' then ['w'] else [])))
    else none

/-- Embeds `get_dist`: `3 if move[-1] == "'" else 2 if move[-1] == '2' else 1`. -/
def getDist (s : String) : Int :=
  if s.back = aposChar then 3 else if s.back = '2' then 2 else 1

/-- Embeds `get_final_move`: `move` plus `['', '', '2', "'"][dist % 4]`. -/
def getFinalMove (move : String) (dist : Int) : String :=
  move ++ (["", "", "2", "'"].getD (dist % 4).toNat "")

/-- The loop of `clean_moves`, carrying `new_moves`, `prev_root` and
`prev_move_dist`.  Note that the final run is emitted *unconditionally*
(the `prev_move_dist % 4 != 0` guard applies only to interior runs). -/
def cleanMovesGo (newMoves : List String) (prevRoot : Option String) (prevDist : Int) :
    List String → Except PyErr (List String)
  | [] =>
    match prevRoot with
    | none => .ok []
    | some r => .ok (newMoves ++ [getFinalMove r prevDist])
  | m :: rest =>
    match getRootMove m with
    | none => .error .attributeError
    | some root =>
      if prevRoot = some root then
        cleanMovesGo newMoves prevRoot (prevDist + getDist m) rest
      else
        match prevRoot with
        | some pr =>
          if prevDist % 4 ≠ 0 then
            cleanMovesGo (newMoves ++ [getFinalMove pr prevDist]) (some root) (getDist m) rest
          else
            cleanMovesGo newMoves (some root) (getDist m) rest
        | none => cleanMovesGo newMoves (some root) (getDist m) rest

/-- Embeds `clean_moves` of `utils.py`. -/
def cleanMoves (moves : List String) : Except PyErr (List String) :=
  cleanMovesGo [] none 0 moves

/-- The token text of a `move_map` letter. -/
def letterStr : MoveLetter → String
  | .R => "R" | .L => "L" | .U => "U" | .D => "D" | .F => "F" | .B => "B"

/-- Embeds `get_move` of `utils.py`; `['R','U','F','L','D','B'].index(side)` is the
`idx` match below (total because `side` ranges over the six letters). -/
def getMove (side : MoveLetter) (dist : Int) (layer width N : Nat) :
    Except PyErr (List String) :=
  let d := (dist % 4).toNat
  if d = 0 then .ok []
  else
    let layerStr := if layer = 1 then "" else toString layer
    let distStr := if d = 2 then "2" else if d = 3 then "'" else ""
    if layer = width ∧ width = N then
      let idx : Nat := match side with
        | .R => 0 | .U => 1 | .F => 2 | .L => 3 | .D => 4 | .B => 5
      let rotStr := ["x", "y", "z"].getD (idx % 3) ""
      .ok [rotStr ++
        ((distStr ++ (if side = .L ∨ side = .B ∨ side = .D then "'" else "")).replace "''" "")]
    else if width = 1 then
      .ok [layerStr ++ letterStr side ++ distStr]
    else if layer = width then
      .ok [layerStr ++ letterStr side ++ "w" ++ distStr]
    else if width < layer then
      let oppDistStr := if d = 2 then "2" else if d = 1 then "'" else ""
      .ok [layerStr ++ letterStr side ++ "w" ++ distStr,
        (if layer - width ≠ 1 then toString (layer - width) else "") ++ letterStr side
          ++ (if layer - width ≠ 1 then "w" else "") ++ oppDistStr]
    else
      .error (.invalidTurn "Cannot turn wider than the given layer")

/-- Python `dict` insertion: an existing key is overwritten in place,
a new key is appended (insertion order preserved). -/
def dictInsert {K V : Type} [DecidableEq K] (k : K) (v : V) :
    List (K × V) → List (K × V)
  | [] => [(k, v)]
  | (k', v') :: t => if k = k' then (k, v) :: t else (k', v') :: dictInsert k v t

/-- Python `dict` lookup (`d[k]`); `none` models the `KeyError`. -/
def dictGet {K V : Type} [DecidableEq K] (k : K) : List (K × V) → Option V
  | [] => none
  | (k', v') :: t => if k = k' then some v' else dictGet k t

/-- The value returned by the 3x3 piece queries: the
`{"c2f": ..., "f2c": ...}` pair of dicts. -/
structure PieceData where
  c2f : List (Color × Face)
  f2c : List (Face × Color)
deriving DecidableEq, Repr

/-- Embeds `{v: k for k, v in colors_to_faces.items()}`. -/
def invertC2F (l : List (Color × Face)) : List (Face × Color) :=
  l.foldl (fun acc p => dictInsert p.2 p.1 acc) []

/-- Membership in `FACE_PAIRS['y'] = (TOP, BOTTOM)`. -/
def inYPair (f : Face) : Bool := f = Face.TOP || f = Face.BOTTOM

/-- Membership in `FACE_PAIRS['z'] = (FRONT, BACK)`. -/
def inZPair (f : Face) : Bool := f = Face.FRONT || f = Face.BACK

/-- Membership in `FACE_PAIRS['x'] = (LEFT, RIGHT)`. -/
def inXPair (f : Face) : Bool := f = Face.LEFT || f = Face.RIGHT

/-- Embeds `Cube3x3.get_edge_between(a, b)`.  The leading assert rejects `a` and `b`
lying in the same axis pair ("Illegal edge combination"); then either the
side-side or the top/bottom branch builds `colors_to_faces` (a 2-entry dict,
which collapses to 1 entry when the two facelet colors coincide) and inverts
it into `f2c`. -/
def getEdgeBetween (cube : Cube 3) (a b : Face) : Except PyErr PieceData :=
  if (inYPair a && inYPair b) || (inZPair a && inZPair b) || (inXPair a && inXPair b) then
    .error (.assertError "Illegal edge combination")
  else if ¬ (inYPair a) ∧ ¬ (inYPair b) then
    let ja : Fin 3 := if ((b.val : Int) - (a.val : Int)) % 4 = 1 then 0 else 2
    let jb : Fin 3 := if ((b.val : Int) - (a.val : Int)) % 4 = 1 then 2 else 0
    let c2f := dictInsert (cube.faces b 1 jb) b (dictInsert (cube.faces a 1 ja) a [])
    .ok ⟨c2f, invertC2F c2f⟩
  else
    let topFace := if inYPair a then a else b
    let sideFace := if topFace = a then b else a
    let tIdx : Fin 3 × Fin 3 :=
      [((2 : Fin 3), (1 : Fin 3)), (1, 0), (0, 1), (1, 2)].getD sideFace.val (0, 0)
    let sIdx : Fin 3 × Fin 3 := if topFace = Face.TOP then (0, 1) else (2, 1)
    let c2f := dictInsert (cube.faces sideFace sIdx.1 sIdx.2) sideFace
      (dictInsert (cube.faces topFace tIdx.1 tIdx.2) topFace [])
    .ok ⟨c2f, invertC2F c2f⟩

/-- Embeds `Cube3x3.get_corner_between(a, b, c)`.  For each of the axis pairs
(`FACE_PAIRS` iterates in insertion order `'y'`, `'z'`, `'x'`),
`filter(lambda x: x in v, [a, b, c]).__next__()` picks the first of the three
arguments in the pair and raises `StopIteration` when none is.  The
`assert all([x_face, y_face, z_face])` of the source is dead code once this
point is reached (enum members are always truthy), so the
"Illegal corner combination" message can never be raised.  The `.pop()` of
`possible_y_corners[z] & possible_y_corners[x]` is modelled by the head of
the filtered list (a singleton for the reachable `z`/`x` values). -/
def getCornerBetween (cube : Cube 3) (a b c : Face) : Except PyErr PieceData :=
  match [a, b, c].find? (fun x => inYPair x) with
  | none => .error .stopIteration
  | some yFace =>
  match [a, b, c].find? (fun x => inZPair x) with
  | none => .error .stopIteration
  | some zFace =>
  match [a, b, c].find? (fun x => inXPair x) with
  | none => .error .stopIteration
  | some xFace =>
    let pyc : List (List (Fin 3 × Fin 3)) :=
      [[(2, 0), (2, 2)], [(0, 0), (2, 0)], [(0, 0), (0, 2)], [(0, 2), (2, 2)]]
    let yIdx := ((pyc.getD zFace.val []).filter
      (fun p => (pyc.getD xFace.val []).contains p)).headD (0, 0)
    let xzY : Fin 3 := if yFace = Face.TOP then 0 else 2
    let xIdx : Fin 3 × Fin 3 :=
      (xzY, if ((zFace.val : Int) - (xFace.val : Int)) % 4 = 1 then 0 else 2)
    let zIdx : Fin 3 × Fin 3 :=
      (xzY, if ((zFace.val : Int) - (xFace.val : Int)) % 4 = 1 then 2 else 0)
    let c2f := dictInsert (cube.faces zFace zIdx.1 zIdx.2) zFace
      (dictInsert (cube.faces xFace xIdx.1 xIdx.2) xFace
        (dictInsert (cube.faces yFace yIdx.1 yIdx.2) yFace []))
    .ok ⟨c2f, invertC2F c2f⟩

/-- A triple of faces forms a legal geometric corner: exactly one face from
each of the three axis pairs. -/
def legalCornerCombo (a b c : Face) : Prop :=
  ([a, b, c].filter (fun x => inYPair x)).length = 1 ∧
  ([a, b, c].filter (fun x => inZPair x)).length = 1 ∧
  ([a, b, c].filter (fun x => inXPair x)).length = 1

instance legalCornerCombo.decidable (a b c : Face) : Decidable (legalCornerCombo a b c) := by
  unfold legalCornerCombo
  infer_instance

deriving instance DecidableEq for Except

/-- Embeds `get_scalar(np.unique(xs))` of `Cube.get_3x3`: `np.unique` of an array
has shape `(1,)` exactly when the array is nonempty with all entries equal;
otherwise the assert "Cube could not be converted to a 3x3" fires. -/
def uniqueScalar (l : List Color) : Except PyErr Color :=
  match l with
  | [] => .error (.assertError "Cube could not be converted to a 3x3")
  | x :: xs =>
    if xs.all (fun y => y = x) then .ok x
    else .error (.assertError "Cube could not be converted to a 3x3")

/-- The indices of the numpy slice `[1:-1]`: `1 .. N-2`. -/
def interior (N : Nat) : List (Fin N) :=
  (List.finRange N).filter (fun k => 1 ≤ k.val ∧ k.val + 1 < N)

/-- One face of the general (`N != 2`) branch of `Cube.get_3x3`: the four
corner facelets copy directly; each edge midpoint is the unique color of the
span between the adjacent corners (`current_side[1:-1, edge_x]` for a side
edge, `current_side[edge_y, 1:-1]` for a top/bottom edge); the center is the
unique color of the whole interior. -/
def face3 {N : Nat} (hN : 0 < N) (c : Cube N) (f : Face) :
    Except PyErr (Fin 3 → Fin 3 → Color) := do
  let lastI : Fin N := ⟨N - 1, by omega⟩
  let e01 ← uniqueScalar ((interior N).map fun k => c.faces f ⟨0, hN⟩ k)
  let e10 ← uniqueScalar ((interior N).map fun k => c.faces f k ⟨0, hN⟩)
  let e12 ← uniqueScalar ((interior N).map fun k => c.faces f k lastI)
  let e21 ← uniqueScalar ((interior N).map fun k => c.faces f lastI k)
  let ctr ← uniqueScalar
    ((interior N).flatMap fun i => (interior N).map fun j => c.faces f i j)
  .ok fun i j =>
    match i.val, j.val with
    | 0, 0 => c.faces f ⟨0, hN⟩ ⟨0, hN⟩
    | 0, 2 => c.faces f ⟨0, hN⟩ lastI
    | 2, 0 => c.faces f lastI ⟨0, hN⟩
    | 2, 2 => c.faces f lastI lastI
    | 0, 1 => e01
    | 1, 0 => e10
    | 1, 2 => e12
    | 2, 1 => e21
    | _, _ => ctr

/-- Embeds `Cube.get_3x3`.  For `N == 2` the corners copy, the edge positions are
set to the filler `Color.WHITE` and the centers come from a fresh solved
reference `Cube3x3()`; otherwise every edge/center is derived from the
scrambled state by span uniqueness (`face3`, faces in `range(6)` order).
On an `N = 0` cube the corner reads `current_side[0, -1]` would raise
`IndexError`. -/
def get3x3 {N : Nat} (c : Cube N) : Except PyErr (Cube 3) :=
  if hN2 : N = 2 then
    .ok ⟨fun f i j =>
      match i.val, j.val with
      | 0, 0 => c.faces f ⟨0, by omega⟩ ⟨0, by omega⟩
      | 0, 2 => c.faces f ⟨0, by omega⟩ ⟨1, by omega⟩
      | 2, 0 => c.faces f ⟨1, by omega⟩ ⟨0, by omega⟩
      | 2, 2 => c.faces f ⟨1, by omega⟩ ⟨1, by omega⟩
      | 1, 1 => solvedColor f
      | _, _ => Color.WHITE⟩
  else if hN : 0 < N then do
    let fF ← face3 hN c .FRONT
    let fL ← face3 hN c .LEFT
    let fB ← face3 hN c .BACK
    let fR ← face3 hN c .RIGHT
    let fT ← face3 hN c .TOP
    let fBo ← face3 hN c .BOTTOM
    .ok ⟨fun f => match f with
      | .FRONT => fF | .LEFT => fL | .BACK => fB
      | .RIGHT => fR | .TOP => fT | .BOTTOM => fBo⟩
  else
    .error .indexError

/-- A scrambled 4x4: FRONT uniformly YELLOW, other faces solved. -/
def cubeFourFrontYellow : Cube 4 :=
  ⟨fun f _ _ => match f with | .FRONT => Color.YELLOW | _ => solvedColor f⟩

/-- Embeds `Cube.turn` with the two asserts of the `__turn_*` methods surfaced as
`AssertionError`s (`layer - width >= 0`, then `layer <= self.N`). -/
def turnM {N : Nat} (c : Cube N) (m : MoveLetter) (dist : Int) (layer width : Nat) :
    Except PyErr (Cube N) :=
  if ¬ (width ≤ layer) then .error (.assertError "Invalid turn: Too wide given the layer")
  else if ¬ (layer ≤ N) then
    .error (.assertError "Invalid turn: Turning more than entire cube")
  else .ok (applyPerm ((turnSrc m N layer width)^[(dist % 4).toNat]) c)

/-- The loop of `orient_centers` (`solver3x3.py` lines 27-33), with `fuel`
counting the remaining iterations of `for i in range(8)` (so the current
index is `i = 8 - fuel`, and the direction is `R` for `i < 4`, i.e.
`4 < fuel`, else `F`).  Each non-break iteration is
`cube.turn(direction, 1, 2, 1, moves)`: the turn itself, then
`moves.extend(get_move(direction, 1, 2, 1, 3))`. -/
def orientCentersGo : Nat → Cube 3 → List String → Except PyErr (List String × Cube 3)
  | 0, c, mv => .ok (mv, c)
  | n + 1, c, mv =>
    if c.faces .BOTTOM 1 1 = Color.WHITE then .ok (mv, c)
    else
      match turnM c (if 4 < n + 1 then .R else .F) 1 2 1 with
      | .error e => .error e
      | .ok c' =>
        match getMove (if 4 < n + 1 then .R else .F) 1 2 1 3 with
        | .error e => .error e
        | .ok toks => orientCentersGo n c' (mv ++ toks)

/-- Embeds `orient_centers(cube)`: the final cube state and the returned move list. -/
def orientCenters (c : Cube 3) : Except PyErr (List String × Cube 3) :=
  orientCentersGo 8 c []

/-- A cube state with no WHITE facelet at all. -/
def cubeAllGreen : Cube 3 := ⟨fun _ _ _ => Color.GREEN⟩

/-- The loop of `SolvePipeline.__call__`: `moves += func(cube)` for each
stage function in order, threading the mutated cube. -/
def pipelineGo {σ : Type} (moves : List String) (c : σ) :
    List (σ → Except PyErr (List String × σ)) → Except PyErr (List String)
  | [] => .ok moves
  | f :: fs =>
    match f c with
    | .error e => .error e
    | .ok (mv, c') => pipelineGo (moves ++ mv) c' fs

/-- Embeds `SolvePipeline.__call__(cube)`: the accumulated move list passed through
`clean_moves`. -/
def pipelineCall {σ : Type} (funcs : List (σ → Except PyErr (List String × σ)))
    (c : σ) : Except PyErr (List String) :=
  match pipelineGo [] c funcs with
  | .error e => .error e
  | .ok mv => cleanMoves mv

/-- The concatenation of the individual stage outputs (each stage run on the
state left by the previous one). -/
def stageMoves {σ : Type} :
    List (σ → Except PyErr (List String × σ)) → σ → Except PyErr (List String)
  | [], _ => .ok []
  | f :: fs, c =>
    match f c with
    | .error e => .error e
    | .ok (mv, c') =>
      match stageMoves fs c' with
      | .error e => .error e
      | .ok rest => .ok (mv ++ rest)

/-- Computes `s * k` for Python strings. -/
def strRepeat (s : String) : Nat → String
  | 0 => ""
  | k + 1 => s ++ strRepeat s k

/-- Drop leading spaces (the only whitespace occurring in move strings). -/
def dropSpaces : List Char → List Char
  | [] => []
  | ch :: rest => if ch = ' ' then dropSpaces rest else ch :: rest

/-- Python `str.strip()` for the space-separated move strings used here. -/
def strStrip (s : String) : String :=
  String.mk (dropSpaces ((dropSpaces s.toList).reverse)).reverse

/-- The worker of `splitSpaces`: current token characters are accumulated in
reverse in `acc`. -/
def splitSpacesGo : List Char → List Char → List String
  | [], acc => if acc.isEmpty then [] else [String.mk acc.reverse]
  | ch :: rest, acc =>
    if ch = ' ' then
      (if acc.isEmpty then splitSpacesGo rest []
        else String.mk acc.reverse :: splitSpacesGo rest [])
    else splitSpacesGo rest (ch :: acc)

/-- Python `str.split()` for the space-separated move strings used here:
runs of spaces separate tokens and produce no empty pieces. -/
def splitSpaces (s : String) : List String :=
  splitSpacesGo s.toList []

/-- Embeds `sexy_move_times(n, left_hand)` of `utils.py` (the Python
default for `left_hand` is `False`, passed explicitly here). -/
def sexyMoveTimes (n : Int) (leftHand : Bool) : String :=
  let n := (n % 6).toNat
  let useBackwards := 3 < n
  let moveLeft := "L' U' L U "
  let moveLeftBackwards := "U' L' U L "
  let moveRight := "R U R' U' "
  let moveRightBackwards := "U R U' R' "
  let moves :=
    if ¬ useBackwards then (if leftHand then moveLeft else moveRight)
    else (if leftHand then moveLeftBackwards else moveRightBackwards)
  " " ++ strStrip (strRepeat moves (min n (6 - n))) ++ " "

/-- Characters of the class `[rfdublRFDUBLxyz]` in `get_letter_dist_layer_width`. -/
def isLetterChar (ch : Char) : Bool :=
  "rfdublRFDUBLxyz".toList.contains ch

/-- Computes `int(...)` applied to a run of decimal digits. -/
def natOfDigits (ds : List Char) : Nat :=
  ds.foldl (fun acc d => acc * 10 + (d.toNat - 48)) 0

/-- Embeds `get_letter_dist_layer_width(m, N)` of `utils.py`: the raw letter
character (still lowercase if it was), the signed distance, the layer and
the width.  `re.search` finds the first class character anywhere in the
token; a failed search means `AttributeError` on `.group()`.
`re.match(r'[1-9][0-9]*', m)` (anchored) is the leading digit run provided
it starts with `1-9`. -/
def getLetterDistLayerWidth (m : String) (N : Nat) :
    Except PyErr (Char × Int × Nat × Nat) :=
  let cs := m.toList
  match cs.find? (fun ch => isLetterChar ch) with
  | none => .error .attributeError
  | some letter =>
    let hasW := cs.contains 'w'
    let leadDigits := cs.takeWhile (fun ch => ch.isDigit)
    let dist : Int :=
      if m.length ≠ 1 then
        (if m.back = '2' then 2 else if m.back = aposChar then -1 else 1)
      else 1
    let layer : Nat :=
      if m.length ≠ 1 then
        (if leadDigits ≠ [] ∧ cs.headD ' ' ≠ '0' then natOfDigits leadDigits
          else if hasW then 2 else 1)
      else 1
    let width : Nat := if m.length ≠ 1 ∧ hasW then layer else 1
    let layer := if letter.isLower then 2 else layer
    let width := if letter.isLower then 2 else width
    if letter = 'x' ∨ letter = 'y' ∨ letter = 'z' then
      let letter2 := if letter = 'x' then 'R' else if letter = 'y' then 'U' else 'F'
      let dist2 : Int := if m.back = aposChar then -1 else if m.back = '2' then 2 else 1
      .ok (letter2, dist2, N, N)
    else
      .ok (letter, dist, layer, width)

/-- The `move_map` lookup of `Cube.turn` (after `letter.upper()`); a key outside
`R/L/U/D/F/B` is a `KeyError`. -/
def charToLetter : Char → Option MoveLetter
  | 'R' => some .R | 'L' => some .L | 'U' => some .U
  | 'D' => some .D | 'F' => some .F | 'B' => some .B
  | _ => none

/-- Embeds `cube.turn(move, dist, layer, width, movelist)` threading the movelist:
the turn itself, then `movelist.extend(get_move(...))`. -/
def turnT {N : Nat} (st : Cube N × List String) (m : MoveLetter) (dist : Int)
    (layer width : Nat) : Except PyErr (Cube N × List String) := do
  let c' ← turnM st.1 m dist layer width
  let toks ← getMove m dist layer width N
  .ok (c', st.2 ++ toks)

/-- The token loop of `Cube.parse(moves, output_movelist)`. -/
def parseGo {N : Nat} (st : Cube N × List String) :
    List String → Except PyErr (Cube N × List String)
  | [] => .ok st
  | t :: ts => do
    let q ← getLetterDistLayerWidth t N
    match charToLetter q.1.toUpper with
    | none => .error .keyError
    | some ml => do
      let st' ← turnT st ml q.2.1 q.2.2.1 q.2.2.2
      parseGo st' ts

/-- Embeds `Cube.parse(moves, output_movelist)`: `moves.split()` produces the
nonempty space-separated tokens (so the source's
`filter(lambda x: bool(x.strip()))` never drops anything), each applied via
`turn`. -/
def parseT {N : Nat} (st : Cube N × List String) (s : String) :
    Except PyErr (Cube N × List String) :=
  parseGo st (splitSpaces s)

/-- The `SIDE_FACES` list of `solver3x3.py`. -/
def SIDE_FACES : List Face := [.FRONT, .LEFT, .BACK, .RIGHT]

/-- One summand of the orientation count of `solve_oll_edges`:
`cube.get_edge_between(face, Face.TOP)["f2c"][Face.TOP] == Color.YELLOW`. -/
def ollEdgeFlag (c : Cube 3) (f : Face) : Except PyErr Bool := do
  let e ← getEdgeBetween c f .TOP
  match dictGet Face.TOP e.f2c with
  | none => .error .keyError
  | some col => .ok (col == Color.YELLOW)

/-- The list of the four orientation flags of `solve_oll_edges`'s list
comprehension, evaluated left to right over `SIDE_FACES`. -/
def ollFlags (c : Cube 3) : Except PyErr (List Bool) := do
  let b1 ← ollEdgeFlag c .FRONT
  let b2 ← ollEdgeFlag c .LEFT
  let b3 ← ollEdgeFlag c .BACK
  let b4 ← ollEdgeFlag c .RIGHT
  .ok [b1, b2, b3, b4]

/-- The `case 3` setup of `solve_oll_edges`'s two-edges branch:
`if not cube.get_edge_between(TOP, FRONT)["f2c"][TOP] == YELLOW: turn("U", 2)`. -/
def ollCase3 (cube : Cube 3) : Except PyErr (Cube 3 × List String) := do
  let e ← getEdgeBetween cube .TOP .FRONT
  match dictGet Face.TOP e.f2c with
  | none => .error .keyError
  | some col =>
    if ¬ (col == Color.YELLOW) then turnT (cube, []) .U 2 1 1
    else .ok (cube, [])

/-- Embeds `solve_oll_edges(cube)` (`solver3x3.py` lines 272-312).  The `match` is
on the number of correctly oriented last-layer edges; cases `1 | 3` raise
the parity `ImpossibleScrambleException`; case `4` returns the empty move
list with the cube untouched; case `2` recomputes the flags to build `s`
(the sum of the oriented faces' enum values), picks a setup turn, then does
`F(layers)`, the sexy move, `F'(layers)`; case `0` runs the fixed
`F`-sexy-`2F`-sexy-`2Fw'` algorithm. -/
def solveOLLEdges (cube : Cube 3) : Except PyErr (List String × Cube 3) := do
  let flags ← ollFlags cube
  match flags.count true with
  | 1 | 3 => .error (.impossibleScramble "Parity detected. Fix one of the edges to continue.")
  | 4 => .ok ([], cube)
  | 2 => do
    let flags2 ← ollFlags cube
    let s := ((SIDE_FACES.zip flags2).filter (fun p => p.2)).foldl
      (fun a p => a + p.1.val) 0
    let layers := 1 + (if s % 2 ≠ 0 then 1 else 0)
    let st1 ← (match s with
      | 1 => turnT (cube, []) .U (-1) 1 1
      | 2 | 5 => turnT (cube, []) .U 1 1 1
      | 3 => ollCase3 cube
      | _ => .ok (cube, []))
    let st2 ← turnT st1 .F 1 layers layers
    let st3 ← parseT st2 (sexyMoveTimes 1 false)
    let st4 ← turnT st3 .F (-1) layers layers
    .ok (st4.2, st4.1)
  | 0 => do
    let st1 ← turnT (cube, []) .F 1 1 1
    let st2 ← parseT st1 (sexyMoveTimes 1 false)
    let st3 ← turnT st2 .F 1 2 1
    let st4 ← parseT st3 (sexyMoveTimes 1 false)
    let st5 ← turnT st4 .F (-1) 2 2
    .ok (st5.2, st5.1)
  | _ => .ok ([], cube)

/-- Computes `top_face_indeces = [(2,1),(1,0),(0,1),(1,2)][side_face.value]`: the TOP
facelet of the edge shared with side face `f`. -/
def topEdgeIdx (f : Face) : Fin 3 × Fin 3 :=
  [((2 : Fin 3), (1 : Fin 3)), (1, 0), (0, 1), (1, 2)].getD f.val (0, 0)

/-- The number of last-layer edges whose TOP facelet is YELLOW (the count
the spec describes). -/
def yellowTopEdges (c : Cube 3) : Nat :=
  (SIDE_FACES.filter (fun f =>
    c.faces .TOP (topEdgeIdx f).1 (topEdgeIdx f).2 == Color.YELLOW)).length

/-- The two facelets of each of the four TOP edges have different colors
(rules out the dict-key collision inside `get_edge_between`). -/
def topEdgesDistinct (c : Cube 3) : Prop :=
  ∀ f ∈ SIDE_FACES, c.faces .TOP (topEdgeIdx f).1 (topEdgeIdx f).2 ≠ c.faces f 0 1

instance topEdgesDistinct.decidable (c : Cube 3) : Decidable (topEdgesDistinct c) := by
  unfold topEdgesDistinct
  infer_instance

/-- A 3x3 state whose FRONT-TOP edge has YELLOW on both facelets and whose
other TOP edges are solved-colored. -/
def cubeCollide : Cube 3 :=
  ⟨fun f i j =>
    match f, i.val, j.val with
    | .TOP, 2, 1 => Color.YELLOW
    | .FRONT, 0, 1 => Color.YELLOW
    | g, _, _ => solvedColor g⟩

theorem Cube.ext' {N : Nat} {c d : Cube N}
    (h : ∀ f i j, c.faces f i j = d.faces f i j) : c = d := by
  cases c; cases d
  congr 1
  funext f i j
  exact h f i j

theorem applyPerm_applyPerm {N : Nat} (σ τ : Pos N → Pos N) (c : Cube N) :
    applyPerm σ (applyPerm τ c) = applyPerm (fun p => τ (σ p)) c := rfl

theorem applyPerm_id {N : Nat} (c : Cube N) : applyPerm id c = c := rfl

theorem turnRightSrc_fourth {N l w : Nat} (hw : w ≤ l) (hl : l ≤ N) (p : Pos N) :
    turnRightSrc N l w (turnRightSrc N l w (turnRightSrc N l w (turnRightSrc N l w p))) = p := by
  obtain ⟨f, i, j⟩ := p
  have hi := i.isLt
  have hj := j.isLt
  cases f
  case FRONT =>
    by_cases hb : N - l ≤ j.val ∧ j.val < N - l + w
    · have hb2 : l - w ≤ (fopp j).val ∧ (fopp j).val < l := by simp; omega
      simp only [turnRightSrc, if_pos hb, if_pos hb2, fopp_fopp]
    · simp only [turnRightSrc, if_neg hb]
  case TOP =>
    by_cases hb : N - l ≤ j.val ∧ j.val < N - l + w
    · have hb2 : l - w ≤ (fopp j).val ∧ (fopp j).val < l := by simp; omega
      simp only [turnRightSrc, if_pos hb, if_pos hb2, fopp_fopp]
    · simp only [turnRightSrc, if_neg hb]
  case BACK =>
    by_cases hb : l - w ≤ j.val ∧ j.val < l
    · have hb2 : N - l ≤ (fopp j).val ∧ (fopp j).val < N - l + w := by simp; omega
      simp only [turnRightSrc, if_pos hb, if_pos hb2, fopp_fopp]
    · simp only [turnRightSrc, if_neg hb]
  case BOTTOM =>
    by_cases hb : N - l ≤ j.val ∧ j.val < N - l + w
    · have hb2 : l - w ≤ (fopp j).val ∧ (fopp j).val < l := by simp; omega
      simp only [turnRightSrc, if_pos hb, if_pos hb2, fopp_fopp]
    · simp only [turnRightSrc, if_neg hb]
  case RIGHT =>
    by_cases hc : l - w = 0
    · simp only [turnRightSrc, if_pos hc, fopp_fopp]
    · simp only [turnRightSrc, if_neg hc]
  case LEFT =>
    by_cases hc : l = N
    · simp only [turnRightSrc, if_pos hc, fopp_fopp]
    · simp only [turnRightSrc, if_neg hc]

theorem turnLeftSrc_fourth {N l w : Nat} (hw : w ≤ l) (hl : l ≤ N) (p : Pos N) :
    turnLeftSrc N l w (turnLeftSrc N l w (turnLeftSrc N l w (turnLeftSrc N l w p))) = p := by
  obtain ⟨f, i, j⟩ := p
  have hi := i.isLt
  have hj := j.isLt
  cases f
  case FRONT =>
    by_cases hb : l - w ≤ j.val ∧ j.val < l
    · have hb2 : N - l ≤ (fopp j).val ∧ (fopp j).val < N - l + w := by simp; omega
      simp only [turnLeftSrc, if_pos hb, if_pos hb2, fopp_fopp]
    · simp only [turnLeftSrc, if_neg hb]
  case TOP =>
    by_cases hb : l - w ≤ j.val ∧ j.val < l
    · have hb2 : N - l ≤ (fopp j).val ∧ (fopp j).val < N - l + w := by simp; omega
      simp only [turnLeftSrc, if_pos hb, if_pos hb2, fopp_fopp]
    · simp only [turnLeftSrc, if_neg hb]
  case BACK =>
    by_cases hb : N - l ≤ j.val ∧ j.val < N - l + w
    · have hb2 : l - w ≤ (fopp j).val ∧ (fopp j).val < l := by simp; omega
      simp only [turnLeftSrc, if_pos hb, if_pos hb2, fopp_fopp]
    · simp only [turnLeftSrc, if_neg hb]
  case BOTTOM =>
    by_cases hb : l - w ≤ j.val ∧ j.val < l
    · have hb2 : N - l ≤ (fopp j).val ∧ (fopp j).val < N - l + w := by simp; omega
      simp only [turnLeftSrc, if_pos hb, if_pos hb2, fopp_fopp]
    · simp only [turnLeftSrc, if_neg hb]
  case LEFT =>
    by_cases hc : l - w = 0
    · simp only [turnLeftSrc, if_pos hc, fopp_fopp]
    · simp only [turnLeftSrc, if_neg hc]
  case RIGHT =>
    by_cases hc : l = N
    · simp only [turnLeftSrc, if_pos hc, fopp_fopp]
    · simp only [turnLeftSrc, if_neg hc]

theorem turnUpSrc_fourth {N l w : Nat} (_hw : w ≤ l) (_hl : l ≤ N) (p : Pos N) :
    turnUpSrc N l w (turnUpSrc N l w (turnUpSrc N l w (turnUpSrc N l w p))) = p := by
  obtain ⟨f, i, j⟩ := p
  have hi := i.isLt
  have hj := j.isLt
  cases f
  case FRONT =>
    by_cases hb : l - w ≤ i.val ∧ i.val < l
    · simp only [turnUpSrc, if_pos hb]
    · simp only [turnUpSrc, if_neg hb]
  case LEFT =>
    by_cases hb : l - w ≤ i.val ∧ i.val < l
    · simp only [turnUpSrc, if_pos hb]
    · simp only [turnUpSrc, if_neg hb]
  case BACK =>
    by_cases hb : l - w ≤ i.val ∧ i.val < l
    · simp only [turnUpSrc, if_pos hb]
    · simp only [turnUpSrc, if_neg hb]
  case RIGHT =>
    by_cases hb : l - w ≤ i.val ∧ i.val < l
    · simp only [turnUpSrc, if_pos hb]
    · simp only [turnUpSrc, if_neg hb]
  case TOP =>
    by_cases hc : l - w = 0
    · simp only [turnUpSrc, if_pos hc, fopp_fopp]
    · simp only [turnUpSrc, if_neg hc]
  case BOTTOM =>
    by_cases hc : l = N
    · simp only [turnUpSrc, if_pos hc, fopp_fopp]
    · simp only [turnUpSrc, if_neg hc]

theorem turnDownSrc_fourth {N l w : Nat} (_hw : w ≤ l) (_hl : l ≤ N) (p : Pos N) :
    turnDownSrc N l w (turnDownSrc N l w (turnDownSrc N l w (turnDownSrc N l w p))) = p := by
  obtain ⟨f, i, j⟩ := p
  have hi := i.isLt
  have hj := j.isLt
  cases f
  case FRONT =>
    by_cases hb : N - l ≤ i.val ∧ i.val < N - l + w
    · simp only [turnDownSrc, if_pos hb]
    · simp only [turnDownSrc, if_neg hb]
  case LEFT =>
    by_cases hb : N - l ≤ i.val ∧ i.val < N - l + w
    · simp only [turnDownSrc, if_pos hb]
    · simp only [turnDownSrc, if_neg hb]
  case BACK =>
    by_cases hb : N - l ≤ i.val ∧ i.val < N - l + w
    · simp only [turnDownSrc, if_pos hb]
    · simp only [turnDownSrc, if_neg hb]
  case RIGHT =>
    by_cases hb : N - l ≤ i.val ∧ i.val < N - l + w
    · simp only [turnDownSrc, if_pos hb]
    · simp only [turnDownSrc, if_neg hb]
  case BOTTOM =>
    by_cases hc : l - w = 0
    · simp only [turnDownSrc, if_pos hc, fopp_fopp]
    · simp only [turnDownSrc, if_neg hc]
  case TOP =>
    by_cases hc : l = N
    · simp only [turnDownSrc, if_pos hc, fopp_fopp]
    · simp only [turnDownSrc, if_neg hc]

theorem turnFrontSrc_fourth {N l w : Nat} (hw : w ≤ l) (hl : l ≤ N) (p : Pos N) :
    turnFrontSrc N l w (turnFrontSrc N l w (turnFrontSrc N l w (turnFrontSrc N l w p))) = p := by
  obtain ⟨f, i, j⟩ := p
  have hi := i.isLt
  have hj := j.isLt
  cases f
  case TOP =>
    by_cases hb : N - l ≤ i.val ∧ i.val < N - l + w
    · have hb2 : l - w ≤ (fopp i).val ∧ (fopp i).val < l := by simp; omega
      simp only [turnFrontSrc, if_pos hb, if_pos hb2, fopp_fopp]
    · simp only [turnFrontSrc, if_neg hb]
  case RIGHT =>
    by_cases hb : l - w ≤ j.val ∧ j.val < l
    · have hb2 : N - l ≤ (fopp j).val ∧ (fopp j).val < N - l + w := by simp; omega
      simp only [turnFrontSrc, if_pos hb, if_pos hb2, fopp_fopp]
    · simp only [turnFrontSrc, if_neg hb]
  case BOTTOM =>
    by_cases hb : N - l ≤ i.val ∧ i.val < N - l + w
    · have hb2 : l - w ≤ (fopp i).val ∧ (fopp i).val < l := by simp; omega
      simp only [turnFrontSrc, if_pos hb, if_pos hb2, fopp_fopp]
    · simp only [turnFrontSrc, if_neg hb]
  case LEFT =>
    by_cases hb : N - l ≤ j.val ∧ j.val < N - l + w
    · have hb2 : l - w ≤ (fopp j).val ∧ (fopp j).val < l := by simp; omega
      simp only [turnFrontSrc, if_pos hb, if_pos hb2, fopp_fopp]
    · simp only [turnFrontSrc, if_neg hb]
  case FRONT =>
    by_cases hc : l - w = 0
    · simp only [turnFrontSrc, if_pos hc, fopp_fopp]
    · simp only [turnFrontSrc, if_neg hc]
  case BACK =>
    by_cases hc : l = N
    · simp only [turnFrontSrc, if_pos hc, fopp_fopp]
    · simp only [turnFrontSrc, if_neg hc]

theorem turnBackSrc_fourth {N l w : Nat} (hw : w ≤ l) (hl : l ≤ N) (p : Pos N) :
    turnBackSrc N l w (turnBackSrc N l w (turnBackSrc N l w (turnBackSrc N l w p))) = p := by
  obtain ⟨f, i, j⟩ := p
  have hi := i.isLt
  have hj := j.isLt
  cases f
  case LEFT =>
    by_cases hb : l - w ≤ j.val ∧ j.val < l
    · have hb2 : N - l ≤ (fopp j).val ∧ (fopp j).val < N - l + w := by simp; omega
      simp only [turnBackSrc, if_pos hb, if_pos hb2, fopp_fopp]
    · simp only [turnBackSrc, if_neg hb]
  case TOP =>
    by_cases hb : l - w ≤ i.val ∧ i.val < l
    · have hb2 : N - l ≤ (fopp i).val ∧ (fopp i).val < N - l + w := by simp; omega
      simp only [turnBackSrc, if_pos hb, if_pos hb2, fopp_fopp]
    · simp only [turnBackSrc, if_neg hb]
  case RIGHT =>
    by_cases hb : N - l ≤ j.val ∧ j.val < N - l + w
    · have hb2 : l - w ≤ (fopp j).val ∧ (fopp j).val < l := by simp; omega
      simp only [turnBackSrc, if_pos hb, if_pos hb2, fopp_fopp]
    · simp only [turnBackSrc, if_neg hb]
  case BOTTOM =>
    by_cases hb : l - w ≤ i.val ∧ i.val < l
    · have hb2 : N - l ≤ (fopp i).val ∧ (fopp i).val < N - l + w := by simp; omega
      simp only [turnBackSrc, if_pos hb, if_pos hb2, fopp_fopp]
    · simp only [turnBackSrc, if_neg hb]
  case BACK =>
    by_cases hc : l - w = 0
    · simp only [turnBackSrc, if_pos hc, fopp_fopp]
    · simp only [turnBackSrc, if_neg hc]
  case FRONT =>
    by_cases hc : l = N
    · simp only [turnBackSrc, if_pos hc, fopp_fopp]
    · simp only [turnBackSrc, if_neg hc]

/-- For every axis, a quarter step has order dividing 4. -/
theorem turnSrc_iterate_four {N l w : Nat} (m : MoveLetter) (hw : w ≤ l) (hl : l ≤ N) :
    (turnSrc m N l w)^[4] = id := by
  funext p
  show turnSrc m N l w (turnSrc m N l w (turnSrc m N l w (turnSrc m N l w p))) = p
  cases m
  case R => exact turnRightSrc_fourth hw hl p
  case L => exact turnLeftSrc_fourth hw hl p
  case U => exact turnUpSrc_fourth hw hl p
  case D => exact turnDownSrc_fourth hw hl p
  case F => exact turnFrontSrc_fourth hw hl p
  case B => exact turnBackSrc_fourth hw hl p

theorem applyPerm_iterate_add {N : Nat} (σ : Pos N → Pos N) (a b : Nat) (c : Cube N) :
    applyPerm (σ^[b]) (applyPerm (σ^[a]) c) = applyPerm (σ^[a + b]) c := by
  rw [applyPerm_applyPerm]
  congr 1
  funext p
  exact (Function.iterate_add_apply σ a b p).symm

theorem iterate_four_mul_id {N : Nat} (σ : Pos N → Pos N) (h : σ^[4] = id) (k : Nat) :
    σ^[4 * k] = id := by
  rw [Function.iterate_mul, h, Function.iterate_id]

/-- C1: for every side length, cube state, axis letter, distance and
layer/width with `1 ≤ width ≤ layer ≤ N`, four applications of
`Cube.turn(letter, d, layer, width)` restore the original state, and a turn
by `d` followed by a turn by `-d` restores the original state. -/
theorem turn_four_times_and_inverse {N : Nat} (c : Cube N) (m : MoveLetter) (d : Int)
    (layer width : Nat) (_h1 : 1 ≤ width) (h2 : width ≤ layer) (h3 : layer ≤ N) :
    ((c.turn m d layer width).bind fun c1 =>
      (c1.turn m d layer width).bind fun c2 =>
        (c2.turn m d layer width).bind fun c3 => c3.turn m d layer width) = some c
    ∧ ((c.turn m d layer width).bind fun c1 => c1.turn m (-d) layer width) = some c := by
  have h4 : (turnSrc m N layer width)^[4] = id := turnSrc_iterate_four m h2 h3
  have hT : ∀ (x : Cube N) (dist : Int),
      x.turn m dist layer width =
        some (applyPerm ((turnSrc m N layer width)^[(dist % 4).toNat]) x) := by
    intro x dist
    simp [Cube.turn, h2, h3]
  constructor
  · simp only [hT, Option.some_bind, applyPerm_iterate_add]
    have he : (d % 4).toNat + ((d % 4).toNat + ((d % 4).toNat + (d % 4).toNat))
        = 4 * (d % 4).toNat := by omega
    rw [he, iterate_four_mul_id _ h4, applyPerm_id]
  · simp only [hT, Option.some_bind, applyPerm_iterate_add]
    have he : (d % 4).toNat + ((-d) % 4).toNat = 0 ∨ (d % 4).toNat + ((-d) % 4).toNat = 4 := by
      omega
    rcases he with he | he
    · rw [he]
      exact congrArg some (applyPerm_id c)
    · rw [he, h4, applyPerm_id]

/-- Witness for C1 at `N = 2`, the solved cube, letter R, distance 1, layer 1, width 1. -/
theorem turn_four_times_and_inverse_witness :
    (((initialCube 2).turn .R 1 1 1).bind fun c1 =>
      (c1.turn .R 1 1 1).bind fun c2 =>
        (c2.turn .R 1 1 1).bind fun c3 => c3.turn .R 1 1 1) = some (initialCube 2)
    ∧ (((initialCube 2).turn .R 1 1 1).bind fun c1 => c1.turn .R (-1) 1 1) =
        some (initialCube 2) :=
  turn_four_times_and_inverse (initialCube 2) .R 1 1 1
    (by decide) (by decide) (by decide)

theorem facelets_applyPerm_equiv {N : Nat} (c : Cube N) (e : Pos N ≃ Pos N) :
    facelets (applyPerm e.toFun c) = facelets c := by
  show Multiset.map _ _ = Multiset.map _ _
  have huniv : (Finset.univ : Finset (Pos N)).map e.toEmbedding = Finset.univ :=
    Finset.map_univ_equiv e
  calc (Finset.univ : Finset (Pos N)).val.map
        (fun p => (applyPerm e.toFun c).faces p.1 p.2.1 p.2.2)
      = (Finset.univ : Finset (Pos N)).val.map
        (fun p => c.faces (e p).1 (e p).2.1 (e p).2.2) := by
        apply Multiset.map_congr rfl
        intro p _
        cases p with
        | mk f q =>
          cases q with
          | mk i j => rfl
    _ = ((Finset.univ : Finset (Pos N)).val.map e).map
        (fun p => c.faces p.1 p.2.1 p.2.2) := by
        rw [Multiset.map_map]
        rfl
    _ = (Finset.univ : Finset (Pos N)).val.map (fun p => c.faces p.1 p.2.1 p.2.2) := by
        have : (Finset.univ : Finset (Pos N)).val.map e =
            (Finset.univ : Finset (Pos N)).val := by
          have h2 := congrArg Finset.val huniv
          simp only [Finset.map] at h2
          exact h2
        rw [this]

theorem facelets_applyPerm_iterate {N : Nat} (σ : Pos N → Pos N) (h4 : σ^[4] = id)
    (e : Nat) (c : Cube N) : facelets (applyPerm (σ^[e]) c) = facelets c := by
  induction e generalizing c with
  | zero => rw [Function.iterate_zero, applyPerm_id]
  | succ k ih =>
    have hstep : applyPerm (σ^[k + 1]) c = applyPerm (σ^[k]) (applyPerm σ c) := by
      rw [applyPerm_applyPerm]
      congr 1
      funext p
      exact Function.iterate_succ_apply' σ k p
    rw [hstep, ih]
    have hleft : Function.LeftInverse (σ^[3]) σ := by
      intro p
      have h := congrFun h4 p
      rw [show (4 : Nat) = 3 + 1 from rfl, Function.iterate_add_apply] at h
      exact h
    have hright : Function.RightInverse (σ^[3]) σ := by
      intro p
      have h := congrFun h4 p
      rw [show (4 : Nat) = 1 + 3 from rfl, Function.iterate_add_apply] at h
      exact h
    exact facelets_applyPerm_equiv c ⟨σ, σ^[3], hleft, hright⟩

/-- C10: every successful `Cube.turn` permutes the facelets: the multiset of
colors over all six faces is unchanged. -/
theorem turn_preserves_facelets {N : Nat} (c : Cube N) (m : MoveLetter) (d : Int)
    (layer width : Nat) (c' : Cube N) (h : c.turn m d layer width = some c') :
    facelets c' = facelets c := by
  unfold Cube.turn at h
  by_cases hc : width ≤ layer ∧ layer ≤ N
  · rw [if_pos hc] at h
    have h4 := turnSrc_iterate_four m hc.1 hc.2
    have h' := Option.some.inj h
    subst h'
    exact facelets_applyPerm_iterate _ h4 _ c
  · rw [if_neg hc] at h
    exact absurd h (by simp)

/-- Witness for C10: an `R` turn on the solved 2x2. -/
theorem turn_preserves_facelets_witness :
    facelets (applyPerm ((turnSrc .R 2 1 1)^[((1 : Int) % 4).toNat]) (initialCube 2)) =
      facelets (initialCube 2) :=
  turn_preserves_facelets (initialCube 2) .R 1 1 1 _ rfl

theorem length_flatMap_const {α β : Type} (l : List α) (g : α → List β) (n : Nat)
    (h : ∀ a ∈ l, (g a).length = n) : (l.flatMap g).length = l.length * n := by
  induction l with
  | nil => simp
  | cons a t ih =>
    have ha := h a (List.mem_cons_self a t)
    have ht : ∀ x ∈ t, (g x).length = n := fun x hx => h x (List.mem_cons_of_mem a hx)
    simp [List.flatMap_cons, ha, ih ht, Nat.succ_mul, Nat.add_comm]

theorem getD_flatMap_const {α β : Type} (l : List α) (g : α → List β) (n : Nat)
    (h : ∀ a ∈ l, (g a).length = n) (q r : Nat) (hq : q < l.length) (hr : r < n) (d : β) :
    (l.flatMap g).getD (q * n + r) d = (g (l.get ⟨q, hq⟩)).getD r d := by
  induction l generalizing q with
  | nil => exact absurd hq (by simp)
  | cons a t ih =>
    have ha := h a (List.mem_cons_self a t)
    have ht : ∀ x ∈ t, (g x).length = n := fun x hx => h x (List.mem_cons_of_mem a hx)
    cases q with
    | zero =>
      have hlt : (0 : Nat) * n + r < (g a).length := by rw [ha]; omega
      rw [List.flatMap_cons, List.getD_append _ _ _ _ (by simpa using hlt)]
      simp
    | succ q' =>
      have hq' : q' < t.length := by simpa using hq
      have hge : (g a).length ≤ (q' + 1) * n + r := by rw [ha]; nlinarith
      rw [List.flatMap_cons, List.getD_append_right _ _ _ _ hge]
      have harith : (q' + 1) * n + r - (g a).length = q' * n + r := by
        rw [ha]
        have : (q' + 1) * n = q' * n + n := by ring
        omega
      rw [harith, ih ht q' hq']
      rfl

theorem faceChars_length {N : Nat} (c : Cube N) (f : Face) :
    (faceChars c f).length = N * N := by
  unfold faceChars
  rw [length_flatMap_const _ _ N (by intro a _; simp)]
  simp

theorem faceChars_getD {N : Nat} (c : Cube N) (f : Face) (i j : Fin N) :
    (faceChars c f).getD (i.val * N + j.val) 'w' = colorToChar (c.faces f i j) := by
  unfold faceChars
  rw [getD_flatMap_const _ _ N (by intro a _; simp) i.val j.val
    (by simpa using i.isLt) j.isLt]
  rw [List.get_finRange]
  have hmk : (⟨i.val, by simpa using i.isLt⟩ : Fin N) = i := rfl
  rw [hmk]
  rw [List.getD_eq_getElem _ _ (by simpa using j.isLt)]
  simp

theorem charToColorOpt_colorToChar (x : Color) :
    charToColorOpt (colorToChar x) = some x := by
  cases x <;> rfl

theorem faceOrder_get (f : Face) (h : f.val < faceOrder.length) :
    faceOrder.get ⟨f.val, h⟩ = f := by
  cases f <;> rfl

/-- C2: serializing any cube state to the flat string and parsing it back
yields the same state, and the flat string has exactly `6 * N^2` characters
(face-major in the fixed `list(Face)` order, row-major within a face). -/
theorem fromSimpleString_toSimpleString {N : Nat} (c : Cube N) :
    (toSimpleString c).length = 6 * N ^ 2 ∧
    fromSimpleString (toSimpleString c) = some ⟨N, c⟩ := by
  have hlist : (toSimpleString c).toList = faceOrder.flatMap (faceChars c) := rfl
  have hlen : (toSimpleString c).length = 6 * (N * N) := by
    show (faceOrder.flatMap (faceChars c)).length = 6 * (N * N)
    rw [length_flatMap_const _ _ (N * N) (by intro a _; exact faceChars_length c a)]
    rfl
  refine ⟨by rw [hlen]; ring, ?_⟩
  have hvalid : (toSimpleString c).toList.all (fun ch => (charToColorOpt ch).isSome) = true := by
    rw [hlist]
    rw [List.all_eq_true]
    intro ch hch
    rw [List.mem_flatMap] at hch
    obtain ⟨f, _, hch⟩ := hch
    unfold faceChars at hch
    rw [List.mem_flatMap] at hch
    obtain ⟨i, _, hch⟩ := hch
    rw [List.mem_map] at hch
    obtain ⟨j, _, rfl⟩ := hch
    rw [charToColorOpt_colorToChar]
    rfl
  have hsqrt : Nat.sqrt ((toSimpleString c).length / 6) = N := by
    rw [hlen, Nat.mul_div_cancel_left _ (by norm_num)]
    exact Nat.sqrt_eq N
  unfold fromSimpleString
  rw [if_pos hvalid]
  generalize hM : Nat.sqrt ((toSimpleString c).length / 6) = M
  have hMN : N = M := by rw [← hM, hsqrt]
  subst hMN
  rw [if_pos (by rw [hlen]; ring)]
  refine congrArg some (congrArg (Sigma.mk N) ?_)
  apply Cube.ext'
  intro f i j
  show (charToColorOpt ((toSimpleString c).toList.getD
      (f.val * (N * N) + i.val * N + j.val) 'w')).getD .WHITE = c.faces f i j
  rw [hlist]
  have hidx : f.val * (N * N) + i.val * N + j.val
      = f.val * (N * N) + (i.val * N + j.val) := by ring
  rw [hidx]
  have hfq : f.val < faceOrder.length := by cases f <;> decide
  have hr : i.val * N + j.val < N * N := by
    have h1 := i.isLt
    have h2 := j.isLt
    nlinarith
  rw [getD_flatMap_const faceOrder (faceChars c) (N * N)
    (by intro a _; exact faceChars_length c a) f.val (i.val * N + j.val) hfq hr]
  rw [faceOrder_get f hfq, faceChars_getD, charToColorOpt_colorToChar]
  rfl

/-- C3: `clean_moves(['3F','3F','3F','3F'])` returns `['3F']`, not the `[]`
promised by the function's own doctest: the final run is appended through
`get_final_move` even when its net distance is `0 (mod 4)`, and
`get_final_move(root, 0)` renders as a bare quarter-turn token.  The two
other doctest examples do hold.  The same flaw breaks idempotence: an
interior run with net distance 0 is dropped, letting its neighbours with
equal roots become adjacent in the output, so `['R','U',"U'",'R']` cleans to
`['R','R']`, which cleans again to `['R2']`. -/
theorem cleanMoves_doctest_failing_input :
    cleanMoves ["3F", "3F", "3F", "3F"] = .ok ["3F"] ∧
    (["3F"] ≠ ([] : List String)) ∧
    cleanMoves ["R", "R", "R"] = .ok ["R'"] ∧
    cleanMoves ["Rw", "Rw"] = .ok ["Rw2"] ∧
    cleanMoves ["R", "U", "U'", "R"] = .ok ["R", "R"] ∧
    cleanMoves ["R", "R"] = .ok ["R2"] := by
  refine ⟨rfl, by decide, rfl, rfl, rfl, rfl⟩

/-- C7 counterexample: with `width > layer`, `get_move` does *not* always
fail: a distance that is `0 (mod 4)` returns `[]` before any width check,
and `width == 1` (with `layer == 0`) takes the single-token branch. -/
theorem getMove_width_gt_layer_counterexample :
    getMove .R 0 1 2 5 = .ok [] ∧ getMove .R 1 0 1 5 = .ok ["0R"] :=
  ⟨rfl, rfl⟩

/-- C7 amended: for `width > layer`, `get_move` raises `InvalidTurnException`
("Cannot turn wider than the given layer") provided the net distance is
nonzero mod 4 and `width ≠ 1`. -/
theorem getMove_width_gt_layer_errors (side : MoveLetter) (dist : Int) (layer width N : Nat)
    (h1 : layer < width) (h2 : dist % 4 ≠ 0) (h3 : width ≠ 1) :
    getMove side dist layer width N =
      .error (.invalidTurn "Cannot turn wider than the given layer") := by
  unfold getMove
  have hd : ¬ ((dist % 4).toNat = 0) := by omega
  rw [if_neg hd]
  rw [if_neg (by rintro ⟨a, b⟩; omega)]
  rw [if_neg h3]
  rw [if_neg (by omega)]
  rw [if_neg (by omega)]

/-- Witness for the amended C7 at `R`, distance 1, layer 1, width 2, `N = 5`. -/
theorem getMove_width_gt_layer_errors_witness :
    getMove .R 1 1 2 5 = .error (.invalidTurn "Cannot turn wider than the given layer") :=
  getMove_width_gt_layer_errors .R 1 1 2 5 (by decide) (by decide) (by decide)

/-- C6 counterexample: `get_corner_between(TOP, BOTTOM, FRONT)` raises, but
the error is a `StopIteration` from the pair-selection filter, not an
`AssertionError` carrying "Illegal corner combination". -/
theorem getCornerBetween_top_bottom_front_error_kind :
    getCornerBetween (initialCube 3) .TOP .BOTTOM .FRONT = .error .stopIteration ∧
    (Except.error PyErr.stopIteration ≠
      (Except.error (PyErr.assertError "Illegal corner combination") :
        Except PyErr PieceData)) :=
  ⟨rfl, by simp⟩

/-- C6 amended: on every cube, `get_corner_between` rejects each combination
of three faces that does not contain exactly one face from each axis pair,
but the raised error is `StopIteration`, not the (unreachable)
"illegal corner combination" assertion. -/
theorem getCornerBetween_illegal_combo_raises (cube : Cube 3) (a b c : Face)
    (h : ¬ legalCornerCombo a b c) :
    getCornerBetween cube a b c = .error .stopIteration := by
  have key : ∀ x y z : Face, ¬ legalCornerCombo x y z →
      ([x, y, z].find? (fun t => inYPair t) = none ∨
       [x, y, z].find? (fun t => inZPair t) = none ∨
       [x, y, z].find? (fun t => inXPair t) = none) := by decide
  have key' := key a b c h
  cases hy : [a, b, c].find? (fun t => inYPair t) with
  | none => simp [getCornerBetween, hy]
  | some yf =>
    cases hz : [a, b, c].find? (fun t => inZPair t) with
    | none => simp [getCornerBetween, hy, hz]
    | some zf =>
      cases hx : [a, b, c].find? (fun t => inXPair t) with
      | none => simp [getCornerBetween, hy, hz, hx]
      | some xf =>
        exfalso
        rcases key' with hk | hk | hk <;> simp_all

/-- Witness for the amended C6 at `(TOP, BOTTOM, FRONT)` on the solved cube. -/
theorem getCornerBetween_illegal_combo_raises_witness :
    getCornerBetween (initialCube 3) .TOP .BOTTOM .FRONT = .error .stopIteration :=
  getCornerBetween_illegal_combo_raises (initialCube 3) .TOP .BOTTOM .FRONT (by decide)

/-- C9 counterexample: for the even side length `N = 4`, `get_3x3` does *not*
substitute the fixed reference color — the resulting FRONT center is the
scrambled state's YELLOW, not the reference GREEN.  Only `N == 2` takes the
substitution branch. -/
theorem get3x3_even_keeps_scrambled_center :
    (get3x3 cubeFourFrontYellow).map (fun r => r.faces .FRONT 1 1) = .ok Color.YELLOW ∧
    solvedColor .FRONT = Color.GREEN ∧ Color.YELLOW ≠ Color.GREEN := by
  refine ⟨by decide, rfl, by decide⟩

/-- C9 amended: for `N = 2` (the only even side length treated specially),
`get_3x3` copies the four corner facelets of each face, sets the four edge
positions to the fixed filler WHITE, and sets each center to the reference
color of a solved cube. -/
theorem get3x3_two_substitutes_reference (c : Cube 2) :
    ∃ c3, get3x3 c = .ok c3 ∧
      (∀ f, c3.faces f 1 1 = solvedColor f) ∧
      (∀ f, c3.faces f 0 1 = Color.WHITE ∧ c3.faces f 1 0 = Color.WHITE ∧
            c3.faces f 1 2 = Color.WHITE ∧ c3.faces f 2 1 = Color.WHITE) ∧
      (∀ f, c3.faces f 0 0 = c.faces f 0 0 ∧ c3.faces f 0 2 = c.faces f 0 1 ∧
            c3.faces f 2 0 = c.faces f 1 0 ∧ c3.faces f 2 2 = c.faces f 1 1) := by
  refine ⟨_, rfl, fun f => rfl, fun f => ⟨rfl, rfl, rfl, rfl⟩, fun f => ⟨rfl, rfl, rfl, rfl⟩⟩

theorem orientCentersGo_break (n : Nat) (c : Cube 3) (mv : List String)
    (h : c.faces .BOTTOM 1 1 = Color.WHITE) :
    orientCentersGo (n + 1) c mv = .ok (mv, c) := by
  simp [orientCentersGo, h]

theorem turnM_mid (c : Cube 3) (m : MoveLetter) :
    turnM c m 1 2 1 = .ok (applyPerm (turnSrc m 3 2 1) c) := rfl

theorem getMove_R_mid : getMove .R 1 2 1 3 = .ok ["2R"] := rfl

theorem getMove_F_mid : getMove .F 1 2 1 3 = .ok ["2F"] := rfl

theorem orientCentersGo_step_R (n : Nat) (c : Cube 3) (mv : List String)
    (h4 : 4 < n + 1) (hw : ¬ c.faces .BOTTOM 1 1 = Color.WHITE) :
    orientCentersGo (n + 1) c mv =
      orientCentersGo n (applyPerm (turnSrc .R 3 2 1) c) (mv ++ ["2R"]) := by
  simp only [orientCentersGo, if_neg hw, if_pos h4, turnM_mid, getMove_R_mid]

theorem orientCentersGo_step_F (n : Nat) (c : Cube 3) (mv : List String)
    (h4 : ¬ (4 < n + 1)) (hw : ¬ c.faces .BOTTOM 1 1 = Color.WHITE) :
    orientCentersGo (n + 1) c mv =
      orientCentersGo n (applyPerm (turnSrc .F 3 2 1) c) (mv ++ ["2F"]) := by
  simp only [orientCentersGo, if_neg hw, if_neg h4, turnM_mid, getMove_F_mid]

theorem applyPerm_four {N : Nat} (σ : Pos N → Pos N)
    (h : ∀ p, σ (σ (σ (σ p))) = p) (c : Cube N) :
    applyPerm σ (applyPerm σ (applyPerm σ (applyPerm σ c))) = c := by
  apply Cube.ext'
  intro f i j
  have h4 := h (f, i, j)
  calc (applyPerm σ (applyPerm σ (applyPerm σ (applyPerm σ c)))).faces f i j
      = c.faces (σ (σ (σ (σ (f, i, j))))).1 (σ (σ (σ (σ (f, i, j))))).2.1
          (σ (σ (σ (σ (f, i, j))))).2.2 := rfl
    _ = c.faces f i j := by rw [h4]

/-- C4 counterexample: on a state with no WHITE center, `orient_centers`
returns with the BOTTOM center still not WHITE (here GREEN): the stated
postcondition fails for cube states lacking a WHITE center. -/
theorem orientCenters_no_white_center :
    (orientCenters cubeAllGreen).map (fun p => p.2.faces .BOTTOM 1 1) = .ok Color.GREEN ∧
    Color.GREEN ≠ Color.WHITE :=
  ⟨by decide, by decide⟩

/-- C4 amended: on every 3x3 state that has WHITE among its six center
facelets, `orient_centers` returns normally, the BOTTOM center of the
resulting cube is WHITE, and the returned move list consists of at most four
middle-slice R turns (`2R`) followed by at most four middle-slice F turns
(`2F`) — at most 8 turns in total. -/
theorem orientCenters_white_bottom (c : Cube 3)
    (h : ∃ f, c.faces f 1 1 = Color.WHITE) :
    ∃ ms c', orientCenters c = .ok (ms, c') ∧ c'.faces .BOTTOM 1 1 = Color.WHITE ∧
      ∃ k m', k ≤ 4 ∧ m' ≤ 4 ∧ ms = List.replicate k "2R" ++ List.replicate m' "2F" := by
  have hR4 : applyPerm (turnSrc .R 3 2 1) (applyPerm (turnSrc .R 3 2 1)
      (applyPerm (turnSrc .R 3 2 1) (applyPerm (turnSrc .R 3 2 1) c))) = c :=
    applyPerm_four _ (fun p => turnRightSrc_fourth (by omega) (by omega) p) c
  unfold orientCenters
  by_cases h0 : c.faces .BOTTOM 1 1 = Color.WHITE
  · exact ⟨[], c, orientCentersGo_break 7 c [] h0, h0, 0, 0, by omega, by omega, rfl⟩
  rw [orientCentersGo_step_R 7 c [] (by omega) h0]
  by_cases h1 : (applyPerm (turnSrc .R 3 2 1) c).faces .BOTTOM 1 1 = Color.WHITE
  · exact ⟨_, _, orientCentersGo_break 6 _ _ h1, h1, 1, 0, by omega, by omega, by decide⟩
  rw [orientCentersGo_step_R 6 _ _ (by omega) h1]
  by_cases h2 : (applyPerm (turnSrc .R 3 2 1) (applyPerm (turnSrc .R 3 2 1) c)).faces
      .BOTTOM 1 1 = Color.WHITE
  · exact ⟨_, _, orientCentersGo_break 5 _ _ h2, h2, 2, 0, by omega, by omega, by decide⟩
  rw [orientCentersGo_step_R 5 _ _ (by omega) h2]
  by_cases h3 : (applyPerm (turnSrc .R 3 2 1) (applyPerm (turnSrc .R 3 2 1)
      (applyPerm (turnSrc .R 3 2 1) c))).faces .BOTTOM 1 1 = Color.WHITE
  · exact ⟨_, _, orientCentersGo_break 4 _ _ h3, h3, 3, 0, by omega, by omega, by decide⟩
  rw [orientCentersGo_step_R 4 _ _ (by omega) h3]
  rw [hR4]
  rw [orientCentersGo_step_F 3 c _ (by omega) h0]
  by_cases h5 : (applyPerm (turnSrc .F 3 2 1) c).faces .BOTTOM 1 1 = Color.WHITE
  · exact ⟨_, _, orientCentersGo_break 2 _ _ h5, h5, 4, 1, by omega, by omega, by decide⟩
  rw [orientCentersGo_step_F 2 _ _ (by omega) h5]
  by_cases h6 : (applyPerm (turnSrc .F 3 2 1) (applyPerm (turnSrc .F 3 2 1) c)).faces
      .BOTTOM 1 1 = Color.WHITE
  · exact ⟨_, _, orientCentersGo_break 1 _ _ h6, h6, 4, 2, by omega, by omega, by decide⟩
  rw [orientCentersGo_step_F 1 _ _ (by omega) h6]
  by_cases h7 : (applyPerm (turnSrc .F 3 2 1) (applyPerm (turnSrc .F 3 2 1)
      (applyPerm (turnSrc .F 3 2 1) c))).faces .BOTTOM 1 1 = Color.WHITE
  · exact ⟨_, _, orientCentersGo_break 0 _ _ h7, h7, 4, 3, by omega, by omega, by decide⟩
  exfalso
  obtain ⟨f, hf⟩ := h
  cases f with
  | BOTTOM => exact h0 hf
  | BACK => exact h1 hf
  | TOP => exact h2 hf
  | FRONT => exact h3 hf
  | RIGHT => exact h5 hf
  | LEFT => exact h7 hf

/-- Witness for the amended C4: the solved cube has its WHITE center on TOP;
`orient_centers` brings WHITE to the BOTTOM center. -/
theorem orientCenters_white_bottom_witness :
    ∃ ms c', orientCenters (initialCube 3) = .ok (ms, c') ∧
      c'.faces .BOTTOM 1 1 = Color.WHITE ∧
      ∃ k m', k ≤ 4 ∧ m' ≤ 4 ∧ ms = List.replicate k "2R" ++ List.replicate m' "2F" :=
  orientCenters_white_bottom (initialCube 3) ⟨.TOP, rfl⟩

theorem pipelineGo_eq {σ : Type} (funcs : List (σ → Except PyErr (List String × σ)))
    (acc : List String) (c : σ) :
    pipelineGo acc c funcs = (stageMoves funcs c).map (fun mv => acc ++ mv) := by
  induction funcs generalizing acc c with
  | nil => simp [pipelineGo, stageMoves, Except.map]
  | cons f fs ih =>
    simp only [pipelineGo, stageMoves]
    cases f c with
    | error e => rfl
    | ok p =>
      obtain ⟨mv, c'⟩ := p
      show pipelineGo (acc ++ mv) c' fs =
        Except.map (fun mv2 => acc ++ mv2)
          (match stageMoves fs c' with
            | Except.error e => Except.error e
            | Except.ok rest => Except.ok (mv ++ rest))
      rw [ih]
      cases stageMoves fs c' with
      | error e => rfl
      | ok rest => simp [Except.map]

/-- C8 amended: stages of the 3x3 pipeline do *not* always return compressed
move lists — `orient_centers` on the solved cube returns `['2R','2R']`, which
`clean_moves` shortens to `['2R2']` — but the pipeline's overall output is
exactly `clean_moves` applied to the concatenation of the stage outputs. -/
theorem pipelineCall_cleanMoves_of_concat :
    ((orientCenters (initialCube 3)).map Prod.fst = .ok ["2R", "2R"] ∧
      cleanMoves ["2R", "2R"] = .ok ["2R2"] ∧ (["2R2"] ≠ (["2R", "2R"] : List String))) ∧
    ∀ (funcs : List (Cube 3 → Except PyErr (List String × Cube 3))) (c : Cube 3),
      pipelineCall funcs c = (stageMoves funcs c).bind cleanMoves := by
  refine ⟨⟨by decide, by decide, by decide⟩, ?_⟩
  intro funcs c
  unfold pipelineCall
  rw [pipelineGo_eq]
  cases stageMoves funcs c with
  | error e => rfl
  | ok mv => simp [Except.map, Except.bind]

/-- C8 counterexample: a pipeline stage whose returned move list is not
`clean_moves`-stable, refuting "every stage returns a compressed move list". -/
theorem orientCenters_output_not_compressed :
    (orientCenters (initialCube 3)).map Prod.fst = .ok ["2R", "2R"] ∧
    cleanMoves ["2R", "2R"] = .ok ["2R2"] ∧ (["2R2"] ≠ (["2R", "2R"] : List String)) :=
  ⟨by decide, by decide, by decide⟩

theorem getEdgeBetween_front_top (c : Cube 3)
    (hd : c.faces .TOP 2 1 ≠ c.faces .FRONT 0 1) :
    getEdgeBetween c .FRONT .TOP =
      .ok ⟨[(c.faces .TOP 2 1, .TOP), (c.faces .FRONT 0 1, .FRONT)],
        [(.TOP, c.faces .TOP 2 1), (.FRONT, c.faces .FRONT 0 1)]⟩ := by
  unfold getEdgeBetween
  rw [if_neg (by decide), if_neg (by decide)]
  simp [dictInsert, invertC2F, Ne.symm hd, Face.val, inYPair]

theorem getEdgeBetween_left_top (c : Cube 3)
    (hd : c.faces .TOP 1 0 ≠ c.faces .LEFT 0 1) :
    getEdgeBetween c .LEFT .TOP =
      .ok ⟨[(c.faces .TOP 1 0, .TOP), (c.faces .LEFT 0 1, .LEFT)],
        [(.TOP, c.faces .TOP 1 0), (.LEFT, c.faces .LEFT 0 1)]⟩ := by
  unfold getEdgeBetween
  rw [if_neg (by decide), if_neg (by decide)]
  simp [dictInsert, invertC2F, Ne.symm hd, Face.val, inYPair]

theorem getEdgeBetween_back_top (c : Cube 3)
    (hd : c.faces .TOP 0 1 ≠ c.faces .BACK 0 1) :
    getEdgeBetween c .BACK .TOP =
      .ok ⟨[(c.faces .TOP 0 1, .TOP), (c.faces .BACK 0 1, .BACK)],
        [(.TOP, c.faces .TOP 0 1), (.BACK, c.faces .BACK 0 1)]⟩ := by
  unfold getEdgeBetween
  rw [if_neg (by decide), if_neg (by decide)]
  simp [dictInsert, invertC2F, Ne.symm hd, Face.val, inYPair]

theorem getEdgeBetween_right_top (c : Cube 3)
    (hd : c.faces .TOP 1 2 ≠ c.faces .RIGHT 0 1) :
    getEdgeBetween c .RIGHT .TOP =
      .ok ⟨[(c.faces .TOP 1 2, .TOP), (c.faces .RIGHT 0 1, .RIGHT)],
        [(.TOP, c.faces .TOP 1 2), (.RIGHT, c.faces .RIGHT 0 1)]⟩ := by
  unfold getEdgeBetween
  rw [if_neg (by decide), if_neg (by decide)]
  simp [dictInsert, invertC2F, Ne.symm hd, Face.val, inYPair]

theorem getEdgeBetween_top_front (c : Cube 3)
    (hd : c.faces .TOP 2 1 ≠ c.faces .FRONT 0 1) :
    getEdgeBetween c .TOP .FRONT =
      .ok ⟨[(c.faces .TOP 2 1, .TOP), (c.faces .FRONT 0 1, .FRONT)],
        [(.TOP, c.faces .TOP 2 1), (.FRONT, c.faces .FRONT 0 1)]⟩ := by
  unfold getEdgeBetween
  rw [if_neg (by decide), if_neg (by decide)]
  simp [dictInsert, invertC2F, Ne.symm hd, Face.val, inYPair]

theorem ollEdgeFlag_front (c : Cube 3) (hd : c.faces .TOP 2 1 ≠ c.faces .FRONT 0 1) :
    ollEdgeFlag c .FRONT = .ok (c.faces .TOP 2 1 == Color.YELLOW) := by
  unfold ollEdgeFlag
  rw [getEdgeBetween_front_top c hd]
  rfl

theorem ollEdgeFlag_left (c : Cube 3) (hd : c.faces .TOP 1 0 ≠ c.faces .LEFT 0 1) :
    ollEdgeFlag c .LEFT = .ok (c.faces .TOP 1 0 == Color.YELLOW) := by
  unfold ollEdgeFlag
  rw [getEdgeBetween_left_top c hd]
  rfl

theorem ollEdgeFlag_back (c : Cube 3) (hd : c.faces .TOP 0 1 ≠ c.faces .BACK 0 1) :
    ollEdgeFlag c .BACK = .ok (c.faces .TOP 0 1 == Color.YELLOW) := by
  unfold ollEdgeFlag
  rw [getEdgeBetween_back_top c hd]
  rfl

theorem ollEdgeFlag_right (c : Cube 3) (hd : c.faces .TOP 1 2 ≠ c.faces .RIGHT 0 1) :
    ollEdgeFlag c .RIGHT = .ok (c.faces .TOP 1 2 == Color.YELLOW) := by
  unfold ollEdgeFlag
  rw [getEdgeBetween_right_top c hd]
  rfl

theorem ollFlags_eq (c : Cube 3) (hd : topEdgesDistinct c) :
    ollFlags c = .ok [c.faces .TOP 2 1 == Color.YELLOW, c.faces .TOP 1 0 == Color.YELLOW,
      c.faces .TOP 0 1 == Color.YELLOW, c.faces .TOP 1 2 == Color.YELLOW] := by
  unfold ollFlags
  rw [ollEdgeFlag_front c (hd .FRONT (by decide)), ollEdgeFlag_left c (hd .LEFT (by decide)),
    ollEdgeFlag_back c (hd .BACK (by decide)), ollEdgeFlag_right c (hd .RIGHT (by decide))]
  rfl

theorem ollCase3_yellow (c : Cube 3) (hdF : c.faces .TOP 2 1 ≠ c.faces .FRONT 0 1)
    (hF : (c.faces .TOP 2 1 == Color.YELLOW) = true) :
    ollCase3 c = .ok (c, []) := by
  unfold ollCase3
  rw [getEdgeBetween_top_front c hdF]
  show (if ¬ ((c.faces .TOP 2 1 == Color.YELLOW) = true) then turnT (c, []) .U 2 1 1
    else Except.ok (c, [])) = Except.ok (c, [])
  rw [hF]
  simp

theorem ollCase3_notyellow (c : Cube 3) (hdF : c.faces .TOP 2 1 ≠ c.faces .FRONT 0 1)
    (hF : (c.faces .TOP 2 1 == Color.YELLOW) = false) :
    ollCase3 c = turnT (c, []) .U 2 1 1 := by
  unfold ollCase3
  rw [getEdgeBetween_top_front c hdF]
  show (if ¬ ((c.faces .TOP 2 1 == Color.YELLOW) = true) then turnT (c, []) .U 2 1 1
    else Except.ok (c, [])) = turnT (c, []) .U 2 1 1
  rw [hF]
  simp

/-- C5 amended: on every 3x3 state whose four TOP edges each have two
distinct facelet colors, `solve_oll_edges` raises the parity
`ImpossibleScrambleException` exactly when the number of correctly-oriented
last-layer edges (TOP facelet YELLOW) is 1 or 3; when all 4 are oriented it
returns the empty move list and the cube unchanged. -/
theorem solveOLLEdges_parity_iff (c : Cube 3) (hd : topEdgesDistinct c) :
    ((solveOLLEdges c = .error (.impossibleScramble
        "Parity detected. Fix one of the edges to continue."))
      ↔ (yellowTopEdges c = 1 ∨ yellowTopEdges c = 3)) ∧
    (yellowTopEdges c = 4 → solveOLLEdges c = .ok ([], c)) := by
  have hdF := hd .FRONT (by decide)
  have hfl := ollFlags_eq c hd
  cases hF : (c.faces .TOP 2 1 == Color.YELLOW) <;>
  cases hL : (c.faces .TOP 1 0 == Color.YELLOW) <;>
  cases hB : (c.faces .TOP 0 1 == Color.YELLOW) <;>
  cases hR : (c.faces .TOP 1 2 == Color.YELLOW)
  -- FFFF: count 0
  · have hy : yellowTopEdges c = 0 := by
      simp [yellowTopEdges, SIDE_FACES, topEdgeIdx, Face.val, hF, hL, hB, hR]
    have hok : ∃ r, solveOLLEdges c = Except.ok r := by
      unfold solveOLLEdges
      rw [hfl]
      simp only [hF, hL, hB, hR]
      exact ⟨_, rfl⟩
    obtain ⟨r, hr⟩ := hok
    rw [hr, hy]
    simp
  -- FFFT: count 1
  · have hy : yellowTopEdges c = 1 := by
      simp [yellowTopEdges, SIDE_FACES, topEdgeIdx, Face.val, hF, hL, hB, hR]
    have hres : solveOLLEdges c = .error (.impossibleScramble
        "Parity detected. Fix one of the edges to continue.") := by
      unfold solveOLLEdges
      rw [hfl]
      simp only [hF, hL, hB, hR]
      rfl
    rw [hres, hy]
    simp
  -- FFTF: count 1
  · have hy : yellowTopEdges c = 1 := by
      simp [yellowTopEdges, SIDE_FACES, topEdgeIdx, Face.val, hF, hL, hB, hR]
    have hres : solveOLLEdges c = .error (.impossibleScramble
        "Parity detected. Fix one of the edges to continue.") := by
      unfold solveOLLEdges
      rw [hfl]
      simp only [hF, hL, hB, hR]
      rfl
    rw [hres, hy]
    simp
  -- FFTT: count 2, s = 5
  · have hy : yellowTopEdges c = 2 := by
      simp [yellowTopEdges, SIDE_FACES, topEdgeIdx, Face.val, hF, hL, hB, hR]
    have hok : ∃ r, solveOLLEdges c = Except.ok r := by
      unfold solveOLLEdges
      rw [hfl]
      simp only [hF, hL, hB, hR]
      exact ⟨_, rfl⟩
    obtain ⟨r, hr⟩ := hok
    rw [hr, hy]
    simp
  -- FTFF: count 1
  · have hy : yellowTopEdges c = 1 := by
      simp [yellowTopEdges, SIDE_FACES, topEdgeIdx, Face.val, hF, hL, hB, hR]
    have hres : solveOLLEdges c = .error (.impossibleScramble
        "Parity detected. Fix one of the edges to continue.") := by
      unfold solveOLLEdges
      rw [hfl]
      simp only [hF, hL, hB, hR]
      rfl
    rw [hres, hy]
    simp
  -- FTFT: count 2, s = 4 (no setup)
  · have hy : yellowTopEdges c = 2 := by
      simp [yellowTopEdges, SIDE_FACES, topEdgeIdx, Face.val, hF, hL, hB, hR]
    have hok : ∃ r, solveOLLEdges c = Except.ok r := by
      unfold solveOLLEdges
      rw [hfl]
      simp only [hF, hL, hB, hR]
      exact ⟨_, rfl⟩
    obtain ⟨r, hr⟩ := hok
    rw [hr, hy]
    simp
  -- FTTF: count 2, s = 3 with FRONT-TOP edge not yellow
  · have hy : yellowTopEdges c = 2 := by
      simp [yellowTopEdges, SIDE_FACES, topEdgeIdx, Face.val, hF, hL, hB, hR]
    have hok : ∃ r, solveOLLEdges c = Except.ok r := by
      unfold solveOLLEdges
      rw [hfl, ollCase3_notyellow c hdF hF]
      simp only [hF, hL, hB, hR]
      exact ⟨_, rfl⟩
    obtain ⟨r, hr⟩ := hok
    rw [hr, hy]
    simp
  -- FTTT: count 3
  · have hy : yellowTopEdges c = 3 := by
      simp [yellowTopEdges, SIDE_FACES, topEdgeIdx, Face.val, hF, hL, hB, hR]
    have hres : solveOLLEdges c = .error (.impossibleScramble
        "Parity detected. Fix one of the edges to continue.") := by
      unfold solveOLLEdges
      rw [hfl]
      simp only [hF, hL, hB, hR]
      rfl
    rw [hres, hy]
    simp
  -- TFFF: count 1
  · have hy : yellowTopEdges c = 1 := by
      simp [yellowTopEdges, SIDE_FACES, topEdgeIdx, Face.val, hF, hL, hB, hR]
    have hres : solveOLLEdges c = .error (.impossibleScramble
        "Parity detected. Fix one of the edges to continue.") := by
      unfold solveOLLEdges
      rw [hfl]
      simp only [hF, hL, hB, hR]
      rfl
    rw [hres, hy]
    simp
  -- TFFT: count 2, s = 3 with FRONT-TOP edge yellow
  · have hy : yellowTopEdges c = 2 := by
      simp [yellowTopEdges, SIDE_FACES, topEdgeIdx, Face.val, hF, hL, hB, hR]
    have hok : ∃ r, solveOLLEdges c = Except.ok r := by
      unfold solveOLLEdges
      rw [hfl, ollCase3_yellow c hdF hF]
      simp only [hF, hL, hB, hR]
      exact ⟨_, rfl⟩
    obtain ⟨r, hr⟩ := hok
    rw [hr, hy]
    simp
  -- TFTF: count 2, s = 2
  · have hy : yellowTopEdges c = 2 := by
      simp [yellowTopEdges, SIDE_FACES, topEdgeIdx, Face.val, hF, hL, hB, hR]
    have hok : ∃ r, solveOLLEdges c = Except.ok r := by
      unfold solveOLLEdges
      rw [hfl]
      simp only [hF, hL, hB, hR]
      exact ⟨_, rfl⟩
    obtain ⟨r, hr⟩ := hok
    rw [hr, hy]
    simp
  -- TFTT: count 3
  · have hy : yellowTopEdges c = 3 := by
      simp [yellowTopEdges, SIDE_FACES, topEdgeIdx, Face.val, hF, hL, hB, hR]
    have hres : solveOLLEdges c = .error (.impossibleScramble
        "Parity detected. Fix one of the edges to continue.") := by
      unfold solveOLLEdges
      rw [hfl]
      simp only [hF, hL, hB, hR]
      rfl
    rw [hres, hy]
    simp
  -- TTFF: count 2, s = 1
  · have hy : yellowTopEdges c = 2 := by
      simp [yellowTopEdges, SIDE_FACES, topEdgeIdx, Face.val, hF, hL, hB, hR]
    have hok : ∃ r, solveOLLEdges c = Except.ok r := by
      unfold solveOLLEdges
      rw [hfl]
      simp only [hF, hL, hB, hR]
      exact ⟨_, rfl⟩
    obtain ⟨r, hr⟩ := hok
    rw [hr, hy]
    simp
  -- TTFT: count 3
  · have hy : yellowTopEdges c = 3 := by
      simp [yellowTopEdges, SIDE_FACES, topEdgeIdx, Face.val, hF, hL, hB, hR]
    have hres : solveOLLEdges c = .error (.impossibleScramble
        "Parity detected. Fix one of the edges to continue.") := by
      unfold solveOLLEdges
      rw [hfl]
      simp only [hF, hL, hB, hR]
      rfl
    rw [hres, hy]
    simp
  -- TTTF: count 3
  · have hy : yellowTopEdges c = 3 := by
      simp [yellowTopEdges, SIDE_FACES, topEdgeIdx, Face.val, hF, hL, hB, hR]
    have hres : solveOLLEdges c = .error (.impossibleScramble
        "Parity detected. Fix one of the edges to continue.") := by
      unfold solveOLLEdges
      rw [hfl]
      simp only [hF, hL, hB, hR]
      rfl
    rw [hres, hy]
    simp
  -- TTTT: count 4
  · have hy : yellowTopEdges c = 4 := by
      simp [yellowTopEdges, SIDE_FACES, topEdgeIdx, Face.val, hF, hL, hB, hR]
    have hres : solveOLLEdges c = .ok ([], c) := by
      unfold solveOLLEdges
      rw [hfl]
      simp only [hF, hL, hB, hR]
      rfl
    rw [hres, hy]
    simp

/-- Witness for the amended C5 on the solved cube (all four TOP edges are
WHITE on top, so the count is 0: no parity exception). -/
theorem solveOLLEdges_parity_iff_witness :
    ((solveOLLEdges (initialCube 3) = .error (.impossibleScramble
        "Parity detected. Fix one of the edges to continue."))
      ↔ (yellowTopEdges (initialCube 3) = 1 ∨ yellowTopEdges (initialCube 3) = 3)) ∧
    (yellowTopEdges (initialCube 3) = 4 →
      solveOLLEdges (initialCube 3) = .ok ([], initialCube 3)) :=
  solveOLLEdges_parity_iff (initialCube 3) (by decide)

/-- C5 counterexample: on `cubeCollide` exactly one TOP edge is correctly
oriented (count 1), so the claim predicts the parity exception; the code
instead raises `KeyError` — building `f2c` collapses the duplicate-color
edge dict to a single entry, and `["f2c"][Face.TOP]` misses. -/
theorem solveOLLEdges_collision_keyerror :
    yellowTopEdges cubeCollide = 1 ∧
    solveOLLEdges cubeCollide = .error .keyError ∧
    (Except.error PyErr.keyError ≠ (Except.error (PyErr.impossibleScramble
      "Parity detected. Fix one of the edges to continue.") :
        Except PyErr (List String × Cube 3))) := by
  refine ⟨by decide, by rfl, by simp⟩

end PyCubing
